import Mathlib

/-!
# Verification of the gcfg value-assignment engine (`set.go`)

This file is a shallow embedding, in Lean 4, of the value-assignment engine of
the gcfg configuration library (the file `set.go` of the repository).  Go
reflection is modelled by an explicit universe of Go types (`GoScalarT`,
`VarType`, `SecType`) and values (`SVal`, `VarVal`, `SecVal`), and the mutable
object graph is modelled by explicit state passing together with a one-level
heap (`List HCell`) for the pointer cells the engine can allocate and write
through.  Each Go function of `set.go` is translated to a Lean function of the
same name.

Modelling conventions, fixed once here:

* Strings: Go's `strings.EqualFold` and the `unicode` classifiers are
  restricted to ASCII case folding (`String.toLower`); the classifier
  `unicode.IsLetter && !IsLower && !IsUpper` (uncased letters) is translated
  literally with the ASCII predicates, mirroring line 38 of `set.go`.
* The external collaborators of the engine that live outside `set.go`
  (`types.ParseInt`, `types.ParseBool`, `types.ScanFully`, the
  `warnings.Collector`, and the gob-based deep copy) are modelled from the
  specification; each such definition carries a doc comment saying so.
* Structs are flat (no embedded fields), as in every gcfg schema; hence
  `reflect.FieldByNameFunc`'s rule "multiple matches cancel one another"
  degenerates to: zero or more than one matching field means no match.
* A 64-bit platform is assumed for the widths of `int`, `uint`, `uintptr`.
-/

namespace GcfgSpec

/-- Decidable equality for `Except` results (setter and parser outcomes). -/
instance {e a : Type} [DecidableEq e] [DecidableEq a] : DecidableEq (Except e a) :=
  fun x y =>
    match x, y with
    | .ok v, .ok w =>
      if h : v = w then .isTrue (by rw [h]) else .isFalse fun hc => h (by cases hc; rfl)
    | .error v, .error w =>
      if h : v = w then .isTrue (by rw [h]) else .isFalse fun hc => h (by cases hc; rfl)
    | .ok _, .error _ => .isFalse fun hc => Except.noConfusion hc
    | .error _, .ok _ => .isFalse fun hc => Except.noConfusion hc

/-- ASCII-restricted model of Go `strings.EqualFold`, implemented over the
character lists so that it computes by structural recursion. -/
def equalFold (s t : String) : Bool :=
  s.data.map Char.toLower == t.data.map Char.toLower

/-- `strings.Split(s, ",")`: comma splitting, by structural recursion. -/
def splitOnCommaAux : List Char → List Char → List String
  | [], acc => [String.mk acc.reverse]
  | c :: cs, acc =>
    if c = ',' then String.mk acc.reverse :: splitOnCommaAux cs []
    else splitOnCommaAux cs (c :: acc)

/-- `strings.Split(s, ",")` on a whole string. -/
def splitOnComma (s : String) : List String := splitOnCommaAux s.data []

/-- Go `strings.HasPrefix`, by structural recursion. -/
def strStartsWith (s p : String) : Bool := p.data.isPrefixOf s.data

/-- Go `s[n:]` (drop the first `n` characters; all modelled strings are
ASCII, so bytes and characters coincide). -/
def strDrop (s : String) (n : Nat) : String := String.mk (s.data.drop n)

/-- The parsed gcfg field tag (`type tag` in set.go): an identifier override
and an integer-base mode directive. -/
structure Tag where
  ident : String
  intMode : String
deriving DecidableEq, Repr

/-- `newTag` from set.go: the first comma-separated segment is the identifier,
and every later segment of the form `int=<letters>` overwrites the int mode. -/
def newTag (ts : String) : Tag :=
  let s := splitOnComma ts
  let ident := s.headD ""
  let im := (s.drop 1).foldl
    (fun acc tse => if strStartsWith tse "int=" then strDrop tse 4 else acc) ""
  ⟨ident, im⟩

/-- Go `reflect.Kind`, restricted to the kinds that can appear in this model. -/
inductive GoKind where
  | kString | kBool
  | kInt | kInt8 | kInt16 | kInt32 | kInt64
  | kUint | kUint8 | kUint16 | kUint32 | kUint64 | kUintptr
  | kStruct | kSlice | kPtr | kMap
deriving DecidableEq, Repr

/-- The scalar destination types of the model: the predeclared Go integer
types, `big.Int`, `string`, `bool`, user-named types over them, and a
user-named struct type implementing `encoding.TextUnmarshaler`. -/
inductive GoScalarT where
  | tInt | tInt8 | tInt16 | tInt32 | tInt64
  | tUint | tUint8 | tUint16 | tUint32 | tUint64 | tUintptr
  | tBigInt
  | tString
  | tBool
  | tNamed (nm : String) (underlying : GoScalarT)
  | tNamedTU (nm : String)
deriving DecidableEq, Repr

/-- The `reflect.Kind` of a scalar type (`big.Int` and the TextUnmarshaler
type are structs; a named type has the kind of its underlying type). -/
def GoScalarT.kind : GoScalarT → GoKind
  | .tInt => .kInt
  | .tInt8 => .kInt8
  | .tInt16 => .kInt16
  | .tInt32 => .kInt32
  | .tInt64 => .kInt64
  | .tUint => .kUint
  | .tUint8 => .kUint8
  | .tUint16 => .kUint16
  | .tUint32 => .kUint32
  | .tUint64 => .kUint64
  | .tUintptr => .kUintptr
  | .tBigInt => .kStruct
  | .tString => .kString
  | .tBool => .kBool
  | .tNamed _ u => u.kind
  | .tNamedTU _ => .kStruct

/-- The type of a variable-level field inside a section struct.  The `named`
flags record whether the slice/pointer type itself is a named (defined) type,
which is what `isMultiVal` and the dereference logic of `set` test via
`Type().Name() == ""`. -/
inductive VarType where
  | scalar (t : GoScalarT)
  | slice (elem : GoScalarT) (named : Bool)
  | ptrScalar (elem : GoScalarT) (named : Bool)
  | ptrSlice (named : Bool) (elemNamed : Bool) (elem : GoScalarT)
  | mapStrStr
  | mapStrListStr
deriving DecidableEq, Repr

/-- `isMultiVal` from set.go: a multi-value is an unnamed slice type, or an
unnamed pointer to an unnamed slice type. -/
def isMultiVal : VarType → Bool
  | .slice _ named => !named
  | .ptrSlice named elemNamed _ => !named && !elemNamed
  | _ => false

/-- Scalar runtime values (all Go integer kinds and `big.Int` are carried as
unbounded `Int`; the width checks happen in the parser, as in Go). -/
inductive SVal where
  | vInt (n : Int)
  | vStr (s : String)
  | vBool (b : Bool)
deriving DecidableEq, Repr

/-- A heap cell: the target of a Go pointer in this model (a scalar for
`*T` fields, a slice of scalars for `*[]T` fields). -/
inductive HCell where
  | hScalar (v : SVal)
  | hSlice (vs : List SVal)
deriving DecidableEq, Repr

/-- Runtime value of a variable-level field.  Pointers are addresses into the
heap (`none` is Go `nil`); maps are association lists (`none` is a nil map). -/
inductive VarVal where
  | scalar (v : SVal)
  | slice (vs : List SVal)
  | ptr (a : Option Nat)
  | mapSS (m : Option (List (String × String)))
  | mapSL (m : Option (List (String × List String)))
deriving DecidableEq, Repr

/-- A field of a section struct: Go field name, raw `gcfg` tag string,
settability (exportedness), and type. -/
structure GField where
  fname : String
  gtag : String
  settable : Bool
  ftype : VarType
deriving DecidableEq, Repr

/-- A section struct type: a flat list of fields. -/
structure StructType where
  fields : List GField
deriving DecidableEq, Repr

/-- A section struct value: one `VarVal` per field, positionally. -/
abbrev StructVal := List VarVal

/-- The `loc` of set.go: section, optional subsection, optional variable. -/
structure Loc where
  lsect : String
  lsub : Option String
  lvar : Option String
deriving DecidableEq, Repr

/-- The Go `error` values produced by this engine.  `unsupportedType` and
`blankUnsupported` are the two sentinel errors of set.go (compared by
identity there); `extraData` and `locErr` are its diagnostic types;
`parseErr` stands for the concrete errors of the external parsers;
`plainErr` for the `fmt.Errorf` error of `setExtraDataInSection`. -/
inductive GErr where
  | unsupportedType
  | blankUnsupported
  | parseErr (msg : String)
  | extraData (l : Loc)
  | locErr (msg : String) (l : Loc)
  | plainErr (msg : String)
deriving DecidableEq, Repr

/-- `Error()` text of the errors a setter can produce (used by set.go when it
wraps a setter error into a `locErr`). -/
def GErr.msg : GErr → String
  | .unsupportedType => "unsupported type"
  | .blankUnsupported => "blank value not supported for type"
  | .parseErr m => m
  | .extraData _ => "extra data"
  | .locErr m _ => m
  | .plainErr m => m

/-- The folded candidate name of `fieldFold` (set.go lines 36-41): an `X`
prefix when the first rune is an uncased letter, then hyphens replaced by
underscores.  The character classifiers are the ASCII restrictions of Go's
`unicode.IsLetter`, `IsLower`, `IsUpper`. -/
def foldedName (name : String) : String :=
  let pre : String :=
    match name.data.head? with
    | some r0 => if r0.isAlpha && !r0.isLower && !r0.isUpper then "X" else ""
    | none => ""
  pre ++ String.mk (name.data.map fun c => if c = '-' then '_' else c)

/-- The match function passed to `FieldByNameFunc` in `fieldFold`, applied to
one field: the field must be settable; a field with a non-empty tag identifier
matches by `EqualFold` of the identifier against the raw name, otherwise by
`EqualFold` of the folded name against the field name. -/
def fieldMatches (name n : String) (fname gtag : String) (settable : Bool) : Bool :=
  settable &&
    (let t := newTag gtag
     if t.ident ≠ "" then equalFold t.ident name else equalFold n fname)

/-- Core of `fieldFold`, generic over struct-like field lists given as
(name, raw tag, settable) triples.  `reflect.FieldByNameFunc` returns the
unique matching field; with flat structs, zero matches or more than one match
both yield "no match" (multiple matches cancel one another). -/
def fieldFoldIdx (fs : List (String × String × Bool)) (name : String) :
    Option (Nat × Tag) :=
  match fs.enum.filter
      (fun p => fieldMatches name (foldedName name) p.2.1 p.2.2.1 p.2.2.2) with
  | [(i, _, gtag, _)] => some (i, newTag gtag)
  | _ => none

/-- `fieldFold` from set.go, on a section struct type. -/
def fieldFold (st : StructType) (name : String) : Option (Nat × Tag) :=
  fieldFoldIdx (st.fields.map fun f => (f.fname, f.gtag, f.settable)) name

/-- The `types.IntMode` bitmask: which numeric bases are allowed. -/
structure IntMode where
  dec : Bool
  hex : Bool
  oct : Bool
deriving DecidableEq, Repr

/-- The zero `IntMode` (no base allowed); `intSetter` compares against it. -/
def IntMode.zero : IntMode := ⟨false, false, false⟩

/-- `types.Dec | types.Hex`. -/
def decHex : IntMode := ⟨true, true, false⟩

/-- `types.Dec | types.Hex | types.Oct`. -/
def decHexOct : IntMode := ⟨true, true, true⟩

/-- `intMode` from set.go: translates the tag's `int=` letters into a mode. -/
def intMode (mode : String) : IntMode :=
  { dec := mode.data.any fun c => c == 'd' || c == 'D'
    hex := mode.data.any fun c => c == 'h' || c == 'H'
    oct := mode.data.any fun c => c == 'o' || c == 'O' }

/-- `typeModes` from set.go: the per-type default modes, keyed by exact
`reflect.Type`.  The predeclared fixed-width and platform-width integer types
and `big.Int` map to `Dec|Hex`; `uintptr` is deliberately absent (the source
comments "use default mode (allow dec/hex/oct) for uintptr type"), and named
types are distinct `reflect.Type`s, hence also absent. -/
def typeModes : GoScalarT → Option IntMode
  | .tInt | .tInt8 | .tInt16 | .tInt32 | .tInt64
  | .tUint | .tUint8 | .tUint16 | .tUint32 | .tUint64
  | .tBigInt => some decHex
  | _ => none

/-- `intModeDefault` from set.go: the `typeModes` entry, else `Dec|Hex|Oct`. -/
def intModeDefault (t : GoScalarT) : IntMode :=
  (typeModes t).getD decHexOct

/-- Value of one digit character in the given base. -/
def digitVal (base : Nat) (c : Char) : Option Nat :=
  let v :=
    if '0'.toNat ≤ c.toNat && c.toNat ≤ '9'.toNat then some (c.toNat - '0'.toNat)
    else if 'a'.toNat ≤ c.toNat && c.toNat ≤ 'f'.toNat then some (c.toNat - 'a'.toNat + 10)
    else if 'A'.toNat ≤ c.toNat && c.toNat ≤ 'F'.toNat then some (c.toNat - 'A'.toNat + 10)
    else none
  match v with
  | some d => if d < base then some d else none
  | none => none

/-- Digits of a non-empty string in the given base, as a number. -/
def digitsToNat (base : Nat) : List Char → Option Nat
  | [] => none
  | cs => cs.foldlM (fun acc c => (digitVal base c).map fun d => acc * base + d) 0

/-- Modelled from the spec: the base-classification half of the external
`types.ParseInt` collaborator (package `types`, not under src/).  A `0x`/`0X`
prefix is the hexadecimal form, a leading `0` with more digits is the octal
form, anything else is the decimal form; each form is accepted exactly when
its base is enabled in the mode. -/
def parseUnsigned (m : IntMode) (body : String) : Option Nat :=
  if strStartsWith body "0x" || strStartsWith body "0X" then
    if m.hex then digitsToNat 16 (strDrop body 2).data else none
  else if strStartsWith body "0" && decide (body.data.length > 1) then
    if m.oct then digitsToNat 8 (strDrop body 1).data else none
  else
    if m.dec then digitsToNat 10 body.data else none

/-- Width and signedness of an integer destination type (`none` = unbounded,
for `big.Int`).  A 64-bit platform is assumed for `int`, `uint`, `uintptr`. -/
def intBits : GoScalarT → Option (Nat × Bool)
  | .tInt => some (64, true)
  | .tInt8 => some (8, true)
  | .tInt16 => some (16, true)
  | .tInt32 => some (32, true)
  | .tInt64 => some (64, true)
  | .tUint => some (64, false)
  | .tUint8 => some (8, false)
  | .tUint16 => some (16, false)
  | .tUint32 => some (32, false)
  | .tUint64 => some (64, false)
  | .tUintptr => some (64, false)
  | .tBigInt => none
  | .tNamed _ u => intBits u
  | _ => none

/-- Does the (possibly signed) value fit the destination width? -/
def inIntRange (bits : Option (Nat × Bool)) (n : Int) : Bool :=
  match bits with
  | none => true
  | some (w, true) => (-(2 ^ (w - 1) : Int) ≤ n) && (n < (2 ^ (w - 1) : Int))
  | some (w, false) => (0 ≤ n) && (n < (2 ^ w : Int))

/-- Modelled from the spec: the overflow check of the external
`types.ParseInt` collaborator (not under src/): it rejects "values that
overflow the destination width". -/
def intCheckRange (t : GoScalarT) (val : String) (n : Int) : Except GErr Int :=
  if inIntRange (intBits t) n then .ok n
  else .error (.parseErr ("overflow " ++ val))

/-- Modelled from the spec (continued): the whole of `types.ParseInt`. -/
def parseInt (t : GoScalarT) (val : String) (m : IntMode) : Except GErr Int :=
  match parseUnsigned m (if strStartsWith val "-" then strDrop val 1 else val) with
  | none => .error (.parseErr ("invalid int " ++ val))
  | some nn =>
    intCheckRange t val (if strStartsWith val "-" then -(nn : Int) else (nn : Int))

/-- Modelled from the spec: the external `types.ParseBool` collaborator (not
under src/), the "strict boolean-literal parser". -/
def parseBool (s : String) : Except GErr Bool :=
  let l := String.mk (s.data.map Char.toLower)
  if l = "true" || l = "t" || l = "yes" || l = "y" || l = "on" || l = "1" then
    .ok true
  else if l = "false" || l = "f" || l = "no" || l = "n" || l = "off" || l = "0" then
    .ok false
  else .error (.parseErr ("failed to parse " ++ s ++ " as a bool"))

/-- The static type of a chain destination (the pointee of the `vAddr`
argument `d interface{}` of a setter): either one of the scalar types of the
model, or a value of some other kind (named slice types, named pointer types
and map types can reach the chain as single-valued destinations). -/
inductive DType where
  | dScalar (t : GoScalarT)
  | dOther (k : GoKind)
deriving DecidableEq, Repr

/-- The `reflect.Kind` of a destination. -/
def DType.kind : DType → GoKind
  | .dScalar t => t.kind
  | .dOther k => k

/-- A setter (`type setter` in set.go).  Success carries the scalar written
through the destination pointer; `.error .unsupportedType` is the sentinel
`errUnsupportedType`.  (No setter of set.go reads the previous destination
value, so the model passes none in.) -/
abbrev Setter := DType → Bool → String → Tag → Except GErr SVal

/-- `intSetter` from set.go: blank is unsupported; the mode is the tag mode
when non-zero, else the per-type default; then the external parse. -/
def intSetter (d : DType) (blank : Bool) (val : String) (t : Tag) :
    Except GErr SVal :=
  if blank then .error .blankUnsupported
  else
    match d with
    | .dOther _ => .error .unsupportedType
    | .dScalar ts =>
      (parseInt ts val
        (if intMode t.intMode = IntMode.zero then intModeDefault ts
         else intMode t.intMode)).map SVal.vInt

/-- `boolSetter` from set.go: blank writes `true`; otherwise the external
strict boolean parser, written through only on success. -/
def boolSetter (_d : DType) (blank : Bool) (val : String) (_t : Tag) :
    Except GErr SVal :=
  if blank then .ok (.vBool true)
  else (parseBool val).map SVal.vBool

/-- `stringSetter` from set.go: blank is unsupported; the destination must be
exactly `*string` (a named string type fails the type assertion and yields
`errUnsupportedType`); otherwise the raw value is assigned verbatim. -/
def stringSetter (d : DType) (blank : Bool) (val : String) (_t : Tag) :
    Except GErr SVal :=
  if blank then .error .blankUnsupported
  else
    match d with
    | .dScalar .tString => .ok (.vStr val)
    | _ => .error .unsupportedType

/-- Which destination types implement `encoding.TextUnmarshaler` in the
model: only the dedicated user-defined type `tNamedTU`. -/
def implementsTextUnmarshaler : DType → Bool
  | .dScalar (.tNamedTU _) => true
  | _ => false

/-- `textUnmarshalerSetter` from set.go: unsupported unless the destination
implements `TextUnmarshaler`; blank then fails (a concrete error); the
modelled `UnmarshalText` stores the raw text. -/
def textUnmarshalerSetter (d : DType) (blank : Bool) (val : String) (_t : Tag) :
    Except GErr SVal :=
  if implementsTextUnmarshaler d then
    if blank then .error .blankUnsupported
    else .ok (.vStr val)
  else .error .unsupportedType

/-- `typeSetters` from set.go: the exact-type dispatch table, holding only
`big.Int ↦ intSetter`. -/
def typeSetters : DType → Option Setter
  | .dScalar .tBigInt => some intSetter
  | _ => none

/-- `typeSetter` from set.go. -/
def typeSetter (d : DType) (blank : Bool) (val : String) (tt : Tag) :
    Except GErr SVal :=
  match typeSetters d with
  | some s => s d blank val tt
  | none => .error .unsupportedType

/-- `kindSetters` from set.go: String ↦ stringSetter, Bool ↦ boolSetter, and
every integer kind (including `Uintptr`) ↦ intSetter. -/
def kindSetters : GoKind → Option Setter
  | .kString => some stringSetter
  | .kBool => some boolSetter
  | .kInt | .kInt8 | .kInt16 | .kInt32 | .kInt64
  | .kUint | .kUint8 | .kUint16 | .kUint32 | .kUint64 | .kUintptr =>
    some intSetter
  | _ => none

/-- `kindSetter` from set.go. -/
def kindSetter (d : DType) (blank : Bool) (val : String) (tt : Tag) :
    Except GErr SVal :=
  match kindSetters d.kind with
  | some s => s d blank val tt
  | none => .error .unsupportedType

/-- Modelled from the spec: the external `types.ScanFully` collaborator (not
under src/), the last-resort "single formatted-scan against the destination
using a default verb".  Its result is always concrete (never the
`unsupported` sentinel).  String kinds scan one non-empty token that must
consume the whole input; bool kinds scan the literals `true`/`false`; integer
kinds scan a decimal number; everything else fails to scan. -/
def scanFully (d : DType) (val : String) : Except GErr SVal :=
  match d with
  | .dScalar ts =>
    match ts.kind with
    | .kString =>
      if val ≠ "" && !(val.data.any fun c => c == ' ') then .ok (.vStr val)
      else .error (.parseErr ("cannot scan " ++ val ++ " as string"))
    | .kBool =>
      if val = "true" then .ok (.vBool true)
      else if val = "false" then .ok (.vBool false)
      else .error (.parseErr ("cannot scan " ++ val ++ " as bool"))
    | .kStruct => .error (.parseErr "cannot scan into struct")
    | _ => (parseInt ts val ⟨true, false, false⟩).map SVal.vInt
  | .dOther _ => .error (.parseErr "cannot scan destination")

/-- `scanSetter` from set.go: blank is unsupported, else the generic scan. -/
def scanSetter (d : DType) (blank : Bool) (val : String) (_tt : Tag) :
    Except GErr SVal :=
  if blank then .error .blankUnsupported
  else scanFully d val

/-- `setters` from set.go: the fixed converter order. -/
def setters : List Setter :=
  [typeSetter, textUnmarshalerSetter, kindSetter, scanSetter]

/-- The setter loop of `set` (set.go lines 321-335): try each setter in
order; stop at the first success; stop at the first error other than the
`errUnsupportedType` sentinel; if every setter reported the sentinel, the
loop falls through with that sentinel as the last error. -/
def chainLoop (ss : List Setter) (d : DType) (blank : Bool) (val : String)
    (t : Tag) : Except GErr SVal :=
  match ss with
  | [] => .error .unsupportedType
  | s :: rest =>
    match s d blank val t with
    | .ok v => .ok v
    | .error e =>
      if e = .unsupportedType then chainLoop rest d blank val t
      else .error e

/-- The slice content of a variable value (defaulting for ill-typed values,
which cannot arise from a well-formed schema). -/
def VarVal.asSlice : VarVal → List SVal
  | .slice vs => vs
  | _ => []

/-- The slice content of a heap cell. -/
def HCell.asSlice : HCell → List SVal
  | .hSlice vs => vs
  | _ => []

/-- Association-list update (Go map store: replace or insert). -/
def alistSet {α : Type} (m : List (String × α)) (k : String) (v : α) :
    List (String × α) :=
  match m with
  | [] => [(k, v)]
  | (k', v') :: rest =>
    if k' = k then (k, v) :: rest else (k', v') :: alistSet rest k v

/-- Association-list lookup (Go map index). -/
def alistGet {α : Type} (m : List (String × α)) (k : String) : Option α :=
  match m with
  | [] => none
  | (k', v') :: rest => if k' = k then some v' else alistGet rest k

/-- The variable-assignment part of `set` (set.go lines 290-342), acting on
field `i` of a section struct: multi-value and blank handling, the
dereference-and-allocate policy for unnamed pointers, the setter chain, and
the conditional write-backs.  Returns the updated struct value, the updated
heap, and the error `set` returns (`locErr` on a chain failure). -/
def setVar (sv : StructVal) (heap : List HCell) (i : Nat) (ft : VarType)
    (t : Tag) (blank : Bool) (value : String) (l : Loc) :
    StructVal × List HCell × Option GErr :=
  -- single-valued destinations of non-scalar kind (named slice or pointer
  -- types, map-typed fields): the chain runs against that kind and, on a
  -- concrete error, set returns a locErr.  The success branch is unreachable
  -- (no setter succeeds on these kinds; see chainLoop_dOther_ne_ok).
  let otherDest := fun (k : GoKind) =>
    match chainLoop setters (.dOther k) blank value t with
    | .ok _ => (sv, heap, (none : Option GErr))
    | .error e => (sv, heap, some (.locErr e.msg l))
  match ft with
  | .slice elem false =>
    -- unnamed slice: multi-valued
    if blank then (sv.set i (.slice []), heap, none)
    else
      match chainLoop setters (.dScalar elem) blank value t with
      | .ok v =>
        let cur := ((sv.get? i).getD (.slice [])).asSlice
        (sv.set i (.slice (cur ++ [v])), heap, none)
      | .error e => (sv, heap, some (.locErr e.msg l))
  | .ptrSlice false false elem =>
    -- unnamed pointer to unnamed slice: multi-valued; the nil pointer is
    -- allocated first (set.go 293-298) and persists even if the chain fails
    let p : Nat × StructVal × List HCell :=
      match (sv.get? i).getD (.ptr none) with
      | .ptr (some a) => (a, sv, heap)
      | _ => (heap.length, sv.set i (.ptr (some heap.length)),
              heap ++ [.hSlice []])
    match p with
    | (a, sv1, h1) =>
      if blank then (sv1, h1.set a (.hSlice []), none)
      else
        match chainLoop setters (.dScalar elem) blank value t with
        | .ok v =>
          let cur := ((h1.get? a).getD (.hSlice [])).asSlice
          (sv1, h1.set a (.hSlice (cur ++ [v])), none)
        | .error e => (sv1, h1, some (.locErr e.msg l))
  | .ptrScalar elem false =>
    -- unnamed pointer to a scalar: dereference-and-allocate policy
    match (sv.get? i).getD (.ptr none) with
    | .ptr (some a) =>
      -- isDeref && !isNew: write through the existing pointer
      match chainLoop setters (.dScalar elem) blank value t with
      | .ok v => (sv, heap.set a (.hScalar v), none)
      | .error e => (sv, heap, some (.locErr e.msg l))
    | _ =>
      -- isNew: fresh zero value; the field pointer is set only on success
      match chainLoop setters (.dScalar elem) blank value t with
      | .ok v => (sv.set i (.ptr (some heap.length)), heap ++ [.hScalar v], none)
      | .error e => (sv, heap, some (.locErr e.msg l))
  | .scalar ts =>
    match chainLoop setters (.dScalar ts) blank value t with
    | .ok v => (sv.set i (.scalar v), heap, none)
    | .error e => (sv, heap, some (.locErr e.msg l))
  | .slice _ true => otherDest .kSlice
  | .ptrSlice true _ _ => otherDest .kPtr
  | .ptrSlice false true _ => otherDest .kSlice
  | .ptrScalar _ true => otherDest .kPtr
  | .mapStrStr => otherDest .kMap
  | .mapStrListStr => otherDest .kMap

/-- Printed form of a scalar type (for the `%v` of error messages). -/
def GoScalarT.showT : GoScalarT → String
  | .tInt => "int"
  | .tInt8 => "int8"
  | .tInt16 => "int16"
  | .tInt32 => "int32"
  | .tInt64 => "int64"
  | .tUint => "uint"
  | .tUint8 => "uint8"
  | .tUint16 => "uint16"
  | .tUint32 => "uint32"
  | .tUint64 => "uint64"
  | .tUintptr => "uintptr"
  | .tBigInt => "big.Int"
  | .tString => "string"
  | .tBool => "bool"
  | .tNamed nm _ => nm
  | .tNamedTU nm => nm

/-- Printed form of a variable-level type (for the `%v` of error messages). -/
def VarType.showT : VarType → String
  | .scalar t => t.showT
  | .slice t _ => "[]" ++ t.showT
  | .ptrScalar t _ => "*" ++ t.showT
  | .ptrSlice _ _ t => "*[]" ++ t.showT
  | .mapStrStr => "map[string]string"
  | .mapStrListStr => "map[string][]string"

/-- `findExtraDataField` from set.go: scans every field in order and keeps the
last one whose raw `gcfg` tag is exactly `extra_values` (settability is not
consulted). -/
def findExtraDataField (st : StructType) : Option Nat :=
  st.fields.enum.foldl
    (fun acc p => if p.2.gtag = "extra_values" then some p.1 else acc) none

/-- `setExtraDataInSection` from set.go.  Returns the updated struct, the
boolean `ok` (whether the caller must collect the returned error), and the
returned error: `extraData` when no catch-all field exists, an empty
`extraData` (discarded by the caller) when a recognized map absorbed the
value, and the formatted `fmt.Errorf` error when the catch-all field's type
is neither recognized map shape. -/
def setExtraDataInSection (st : StructType) (sv : StructVal) (key value : String)
    (l : Loc) : StructVal × Bool × GErr :=
  match findExtraDataField st with
  | none => (sv, true, .extraData l)
  | some i =>
    match st.fields.get? i with
    | none => (sv, true, .extraData l)  -- unreachable: the index is in range
    | some f =>
      match f.ftype with
      | .mapStrStr =>
        match (sv.get? i).getD (.mapSS none) with
        | .mapSS none =>
          (sv.set i (.mapSS (some [(key, value)])), false, .extraData ⟨"", none, none⟩)
        | .mapSS (some m) =>
          (sv.set i (.mapSS (some (alistSet m key value))), false, .extraData ⟨"", none, none⟩)
        | _ => (sv, false, .extraData ⟨"", none, none⟩)  -- ill-typed value: unreachable
      | .mapStrListStr =>
        match (sv.get? i).getD (.mapSL none) with
        | .mapSL none =>
          (sv.set i (.mapSL (some [(key, [value])])), false, .extraData ⟨"", none, none⟩)
        | .mapSL (some m) =>
          match alistGet m key with
          | some vs =>
            (sv.set i (.mapSL (some (alistSet m key (vs ++ [value])))), false,
             .extraData ⟨"", none, none⟩)
          | none =>
            (sv.set i (.mapSL (some (alistSet m key [value]))), false,
             .extraData ⟨"", none, none⟩)
        | _ => (sv, false, .extraData ⟨"", none, none⟩)  -- ill-typed value: unreachable
      | ft =>
        (sv, true, .plainErr
          ("extra data field must be of type map[string]string or map[string][]string, was "
            ++ ft.showT))

/-- The tail of `set` once a section (or subsection) struct has been resolved
(set.go lines 279-342): the empty-name sentinel, variable folding, extra-data
capture for unmatched names, and `setVar` for matched ones.  Returns the
updated struct and heap, the list of diagnostics collected through the
collector, and the error returned by `set`. -/
def setInStruct (st : StructType) (sv : StructVal) (heap : List HCell)
    (name : String) (blank : Bool) (value : String) (l : Loc) :
    StructVal × List HCell × List GErr × Option GErr :=
  if name = "" then (sv, heap, [], none)
  else
    let l' := { l with lvar := some name }
    match fieldFold st name with
    | none =>
      match setExtraDataInSection st sv name value l' with
      | (sv', true, e) => (sv', heap, [e], none)
      | (sv', false, _) => (sv', heap, [], none)
    | some (j, t) =>
      match (st.fields.get? j).map GField.ftype with
      | some ft =>
        match setVar sv heap j ft t blank value l' with
        | (sv', h', r) => (sv', h', [], r)
      | none => (sv, heap, [], none)  -- unreachable: fieldFold indices are in range

/-- Zero value of a scalar type. -/
def zeroSVal : GoScalarT → SVal
  | .tString => .vStr ""
  | .tBool => .vBool false
  | .tNamed _ u => zeroSVal u
  | .tNamedTU _ => .vStr ""
  | _ => .vInt 0

/-- Zero value of a variable-level type (what `reflect.New` produces). -/
def zeroVarVal : VarType → VarVal
  | .scalar t => .scalar (zeroSVal t)
  | .slice _ _ => .slice []
  | .ptrScalar _ _ => .ptr none
  | .ptrSlice _ _ _ => .ptr none
  | .mapStrStr => .mapSS none
  | .mapStrListStr => .mapSL none

/-- Zero value of a section struct type. -/
def zeroStruct (st : StructType) : StructVal :=
  st.fields.map fun f => zeroVarVal f.ftype

/-- Modelled from the spec: one field of the gob encode/decode round trip of
`newValue` (packages `bytes`/`encoding/gob`, not under src/).  Per the spec it
is a deep copy: scalar, slice and map contents are copied by value, a nil
pointer stays nil, and a non-nil pointer gets a freshly allocated cell holding
a copy of the pointee. -/
def copyVarVal (h : List HCell) (v : VarVal) : VarVal × List HCell :=
  match v with
  | .ptr (some a) =>
    match h.get? a with
    | some c => (.ptr (some h.length), h ++ [c])
    | none => (.ptr none, h)  -- dangling pointer: unreachable under closedness
  | v => (v, h)

/-- Deep copy of a whole section struct, field by field in order (see
`copyVarVal`). -/
def deepCopyStruct (dv : StructVal) (h : List HCell) : StructVal × List HCell :=
  match dv with
  | [] => ([], h)
  | v :: rest =>
    match copyVarVal h v with
    | (v2, h2) =>
      match deepCopyStruct rest h2 with
      | (out, h3) => (v2 :: out, h3)

/-- The type of a section-level field of the root config struct.  `mapBad` is
a map field of any other shape (its panic message is what matters), and
`nonStructNonMap` a field that is neither a map nor a struct. -/
inductive SecType where
  | plainStruct (st : StructType)
  | mapStrStr
  | mapStrPtrStruct (st : StructType)
  | mapBad (desc : String)
  | nonStructNonMap (k : GoKind)
deriving DecidableEq, Repr

/-- Runtime value of a section-level field.  For `mapStrPtrStruct` each map
entry holds the struct the stored `*struct` pointer points to; the pointers
themselves are unique per entry (each is created by `reflect.New` in
`newValue`), so they need no heap indirection, while the pointers *inside*
those structs live on the heap. -/
inductive SecVal where
  | plainStruct (v : StructVal)
  | mapSS (m : Option (List (String × String)))
  | mapSPS (m : Option (List (String × StructVal)))
  | badVal
deriving DecidableEq, Repr

/-- A section-level field of the root config struct. -/
structure RootField where
  fname : String
  gtag : String
  settable : Bool
  ftype : SecType
deriving DecidableEq, Repr

/-- The root config struct type. -/
structure RootType where
  fields : List RootField
deriving DecidableEq, Repr

/-- `fieldFold` applied to the root config struct. -/
def rootFold (rt : RootType) (name : String) : Option (Nat × Tag) :=
  fieldFoldIdx (rt.fields.map fun f => (f.fname, f.gtag, f.settable)) name

/-- `newValue` from set.go: a fresh zero struct for a new subsection; if the
root declares a `default-<section>` field (found via `fieldFold`), its value
is gob round-tripped into the fresh struct — modelled as `deepCopyStruct`
when that field is a struct of the same type (the only shape the spec's
default-template semantics describes; gob errors cannot arise then, so the
collector is not consulted). -/
def newValue (rt : RootType) (rv : List SecVal) (h : List HCell) (sect : String)
    (st : StructType) : StructVal × List HCell :=
  let pv := zeroStruct st
  match rootFold rt ("default-" ++ sect) with
  | none => (pv, h)
  | some (j, _) =>
    match (rt.fields.get? j).map RootField.ftype, rv.get? j with
    | some (.plainStruct stD), some (.plainStruct dv) =>
      if stD = st then deepCopyStruct dv h else (pv, h)
    | _, _ => (pv, h)

/-- Result of one call to `set`: either a Go panic, or the updated config
values and heap together with the diagnostics the call handed to the
`warnings.Collector` and the error the call returned.  The collector is
modelled from the spec as collect-and-continue (its fatality filter lives
outside src/): `c.Collect(err)` appends `err` and returns nil. -/
inductive SetOutcome where
  | panicked (msg : String)
  | done (rv : List SecVal) (heap : List HCell) (diags : List GErr)
         (ret : Option GErr)
deriving DecidableEq, Repr

/-- `set` from set.go, the engine's single entry point.  The config argument
is the dereferenced root struct (type and values); the pointer-to-struct
check of lines 220-223 is prior to everything modelled here and is omitted. -/
def set (rt : RootType) (rv : List SecVal) (heap : List HCell)
    (sect sub name : String) (blank : Bool) (value : String)
    (subsectPass : Bool) : SetOutcome :=
  match rootFold rt sect with
  | none => .done rv heap [.extraData ⟨sect, none, none⟩] none
  | some (i, _) =>
    match (rt.fields.get? i).map RootField.ftype with
    | none => .done rv heap [] none  -- unreachable: rootFold indices are in range
    | some sty =>
      let isSubsect : Bool :=
        match sty with
        | .plainStruct _ => false
        | .nonStructNonMap _ => false
        | _ => true
      if subsectPass != isSubsect then .done rv heap [] none
      else
        match sty with
        | .mapStrStr =>
          -- flat string-to-string subsection map (set.go 238-250)
          let m : List (String × String) :=
            match (rv.get? i).getD (.mapSS none) with
            | .mapSS (some m) => m
            | _ => []
          if value ≠ "" then
            let key := if sub ≠ "" then sub ++ " " ++ name else name
            .done (rv.set i (.mapSS (some (alistSet m key value)))) heap [] none
          else
            .done (rv.set i (.mapSS (some m))) heap [] none
        | .mapBad _ =>
          .panicked ("map field for section must have string keys and  pointer-to-struct or string values: section \"" ++ sect ++ "\"")
        | .mapStrPtrStruct st =>
          -- structured subsection map (set.go 251-270)
          let m : List (String × StructVal) :=
            match (rv.get? i).getD (.mapSPS none) with
            | .mapSPS (some m) => m
            | _ => []
          let l : Loc := ⟨sect, some sub, none⟩
          match alistGet m sub with
          | some sv =>
            match setInStruct st sv heap name blank value l with
            | (sv', h', ds, r) =>
              .done (rv.set i (.mapSPS (some (alistSet m sub sv')))) h' ds r
          | none =>
            match newValue rt rv heap sect st with
            | (sv0, h0) =>
              match setInStruct st sv0 h0 name blank value l with
              | (sv', h', ds, r) =>
                .done (rv.set i (.mapSPS (some (alistSet m sub sv')))) h' ds r
        | .plainStruct st =>
          if sub ≠ "" then .done rv heap [.extraData ⟨sect, none, none⟩] none
          else
            let sv : StructVal :=
              match (rv.get? i).getD (.plainStruct (zeroStruct st)) with
              | .plainStruct sv => sv
              | _ => zeroStruct st
            match setInStruct st sv heap name blank value ⟨sect, none, none⟩ with
            | (sv', h', ds, r) => .done (rv.set i (.plainStruct sv')) h' ds r
        | .nonStructNonMap _ =>
          .panicked ("field for section must be a map or a struct: section \"" ++ sect ++ "\"")

/-- One already-tokenized `(name, blank, value)` triple for a fixed
section/subsection. -/
structure Tuple where
  name : String
  blank : Bool
  value : String
deriving DecidableEq, Repr

/-- Apply one tuple in the subsection pass, accumulating over an outcome
(panics absorb everything after them; collected diagnostics accumulate). -/
def stepTuple (rt : RootType) (sect sub : String) (o : SetOutcome) (tp : Tuple) :
    SetOutcome :=
  match o with
  | .panicked m => .panicked m
  | .done rv h ds _ =>
    match set rt rv h sect sub tp.name tp.blank tp.value true with
    | .panicked m => .panicked m
    | .done rv' h' ds' r' => .done rv' h' (ds ++ ds') r'

/-- Apply a list of tuples to the same section/subsection, in order. -/
def runTuples (rt : RootType) (sect sub : String) (ts : List Tuple)
    (o : SetOutcome) : SetOutcome :=
  ts.foldl (stepTuple rt sect sub) o

/-- The heap address a field value holds, if it is a non-nil pointer. -/
def varAddr : VarVal → Option Nat
  | .ptr (some a) => some a
  | _ => none

/-- The heap addresses held by the pointer fields of a section struct. -/
def structAddrs (sv : StructVal) : List Nat :=
  sv.filterMap varAddr

/-- Every pointer of the struct points at or above address `n`. -/
abbrev AddrsGE (sv : StructVal) (n : Nat) : Prop :=
  ∀ a ∈ structAddrs sv, n ≤ a

/-- Every pointer of the struct points into the heap. -/
abbrev ClosedSv (sv : StructVal) (h : List HCell) : Prop :=
  ∀ a ∈ structAddrs sv, a < h.length

/-- The observable content of a variable-level field: its value with pointer
addresses replaced by the pointed-to cell (pointer identity is not
observable through the configuration API). -/
inductive Obs where
  | scalar (v : SVal)
  | slice (vs : List SVal)
  | ptr (c : Option HCell)
  | mapSS (m : Option (List (String × String)))
  | mapSL (m : Option (List (String × List String)))
deriving DecidableEq, Repr

/-- Observe one field value under a heap. -/
def obsVar (h : List HCell) : VarVal → Obs
  | .scalar v => .scalar v
  | .slice vs => .slice vs
  | .ptr none => .ptr none
  | .ptr (some a) => .ptr (h.get? a)
  | .mapSS m => .mapSS m
  | .mapSL m => .mapSL m

/-- Observe a whole section struct under a heap. -/
def obsStruct (h : List HCell) (sv : StructVal) : List Obs :=
  sv.map (obsVar h)

/-- Is the kind one of Go's eleven integer kinds? -/
def isIntKind : GoKind → Bool
  | .kInt | .kInt8 | .kInt16 | .kInt32 | .kInt64
  | .kUint | .kUint8 | .kUint16 | .kUint32 | .kUint64 | .kUintptr => true
  | _ => false

/-- An "integer-like" destination type in the sense of the claim: a type of
integer kind, or the arbitrary-precision `big.Int` (possibly named). -/
def isIntegerLike (t : GoScalarT) : Bool :=
  isIntKind t.kind ||
    (match t with
     | .tBigInt => true
     | .tNamed _ u => isIntegerLike u
     | _ => false)

/-- A "fixed-width integer type" in the sense of the claim: a type whose
width is fixed independently of the platform (`int8/.../int64`,
`uint8/.../uint64`, and named types over them); `int`, `uint` and `uintptr`
are platform-width, `big.Int` is arbitrary-precision. -/
def isFixedWidthInt : GoScalarT → Bool
  | .tInt8 | .tInt16 | .tInt32 | .tInt64
  | .tUint8 | .tUint16 | .tUint32 | .tUint64 => true
  | .tNamed _ u => isFixedWidthInt u
  | _ => false

/-- The predeclared integer types and `big.Int`: exactly the keys of the
`typeModes` table of set.go. -/
def isPredeclaredIntOrBig : GoScalarT → Bool
  | .tInt | .tInt8 | .tInt16 | .tInt32 | .tInt64
  | .tUint | .tUint8 | .tUint16 | .tUint32 | .tUint64 | .tBigInt => true
  | _ => false

/-- The sequence a multi-valued field currently holds: the slice itself for
a slice-typed field, the pointed-to slice for a pointer-to-slice field. -/
def readMulti (sv : StructVal) (heap : List HCell) (i : Nat) : List SVal :=
  match (sv.get? i).getD (.slice []) with
  | .slice vs => vs
  | .ptr (some a) => ((heap.get? a).getD (.hSlice [])).asSlice
  | .ptr none => []
  | _ => []

/-- Runtime shape of a multi-valued field's value: a slice-typed field holds
a slice; a pointer-to-slice field is nil or points into the heap. -/
abbrev MShape (sv : StructVal) (heap : List HCell) (i : Nat) : VarType → Prop
  | .slice _ _ =>
    match sv[i]? with
    | some (.slice _) => True
    | _ => False
  | .ptrSlice _ _ _ =>
    match sv[i]? with
    | some (.ptr none) => True
    | some (.ptr (some a)) => a < heap.length
    | _ => False
  | _ => False

/-- Apply `setVar` for the same field to a list of raw values in order, all
non-blank, discarding per-value errors (the engine continues after a data
error). -/
def applySeq (i : Nat) (ft : VarType) (t : Tag) (l : Loc)
    (p : StructVal × List HCell) (vals : List String) :
    StructVal × List HCell :=
  vals.foldl
    (fun q v =>
      match setVar q.1 q.2 i ft t false v l with
      | (sv', h', _) => (sv', h'))
    p

/-! ## Helper lemmas -/

/-- A prefix of setters that all report the `unsupported` sentinel is skipped
by the loop. -/
theorem chainLoop_append_unsup (pre rest : List Setter) (d : DType)
    (blank : Bool) (val : String) (t : Tag)
    (h : ∀ f ∈ pre, f d blank val t = .error .unsupportedType) :
    chainLoop (pre ++ rest) d blank val t = chainLoop rest d blank val t := by
  induction pre with
  | nil => rfl
  | cons s ss ih =>
    have hs : s d blank val t = .error .unsupportedType :=
      h s (List.mem_cons_self s ss)
    have h2 := ih fun f hf => h f (List.mem_cons_of_mem s hf)
    rw [List.cons_append, chainLoop, hs]
    simpa using h2

/-- The loop stops with a concrete error of the head setter. -/
theorem chainLoop_cons_err (s : Setter) (rest : List Setter) (d : DType)
    (blank : Bool) (val : String) (t : Tag) (e : GErr)
    (hs : s d blank val t = .error e) (he : e ≠ .unsupportedType) :
    chainLoop (s :: rest) d blank val t = .error e := by
  rw [chainLoop, hs]
  simp [he]

/-- The loop stops with a success of the head setter. -/
theorem chainLoop_cons_ok (s : Setter) (rest : List Setter) (d : DType)
    (blank : Bool) (val : String) (t : Tag) (w : SVal)
    (hs : s d blank val t = .ok w) :
    chainLoop (s :: rest) d blank val t = .ok w := by
  rw [chainLoop, hs]

/-! ## Claim theorems -/

/-- C1, counterexample: the claim predicts that a platform-width integer
destination (`int` is integer-like but not fixed-width) with no `int=` tag
allows decimal+hexadecimal+octal; the code's `typeModes` table maps `int` to
`Dec|Hex`, so the octal form `"052"` is rejected for `int` (while `uintptr`,
absent from the table, accepts it). -/
theorem c1_counterexample :
    isIntegerLike GoScalarT.tInt = true ∧
    isFixedWidthInt GoScalarT.tInt = false ∧
    intModeDefault GoScalarT.tInt ≠ decHexOct ∧
    intSetter (.dScalar .tInt) false "052" ⟨"", ""⟩ =
      .error (.parseErr "invalid int 052") ∧
    intSetter (.dScalar .tUintptr) false "052" ⟨"", ""⟩ = .ok (.vInt 42) := by
  refine ⟨rfl, rfl, by decide, by decide, by decide⟩

/-- C1 (amended): for an integer destination with no `int=` directive,
`intSetter` parses under exactly the per-type default mode; that default is
decimal+hexadecimal for the predeclared integer types `int`, `int8..64`,
`uint`, `uint8..64` and for `big.Int`, and decimal+hexadecimal+octal for
every other integer-like destination type (`uintptr`, user-named integer
types); forms of a disabled base are rejected, as are values overflowing the
destination width. -/
theorem c1_amended (ts : GoScalarT) (val : String) (t : Tag)
    (h : intMode t.intMode = IntMode.zero) :
    intSetter (.dScalar ts) false val t =
      (parseInt ts val (intModeDefault ts)).map SVal.vInt ∧
    intModeDefault ts = (if isPredeclaredIntOrBig ts then decHex else decHexOct) ∧
    (∀ (m : IntMode) (body : String),
      (m.hex = false → (strStartsWith body "0x" || strStartsWith body "0X") = true →
        parseUnsigned m body = none) ∧
      (m.oct = false → (strStartsWith body "0x" || strStartsWith body "0X") = false →
        (strStartsWith body "0" && decide (body.data.length > 1)) = true →
        parseUnsigned m body = none) ∧
      (m.dec = false → (strStartsWith body "0x" || strStartsWith body "0X") = false →
        (strStartsWith body "0" && decide (body.data.length > 1)) = false →
        parseUnsigned m body = none)) ∧
    (∀ n : Int, parseInt ts val (intModeDefault ts) = .ok n →
      inIntRange (intBits ts) n = true) := by
  refine ⟨?_, ?_, ?_, ?_⟩
  · simp [intSetter, h]
  · cases ts <;> rfl
  · intro m body
    refine ⟨?_, ?_, ?_⟩
    · intro hm hpre
      rw [parseUnsigned, if_pos hpre, hm]
      simp
    · intro hm hpre hoct
      rw [parseUnsigned, if_neg (by rw [hpre]; simp), if_pos hoct, hm]
      simp
    · intro hm hpre hoct
      rw [parseUnsigned, if_neg (by rw [hpre]; simp), if_neg (by rw [hoct]; simp), hm]
      simp
  · intro n hn
    unfold parseInt intCheckRange at hn
    split at hn
    · exact Except.noConfusion hn
    · split at hn
      · split at hn
        · rename_i hr
          injection hn with h2
          subst h2
          exact hr
        · exact Except.noConfusion hn
      · split at hn
        · rename_i hr
          injection hn with h2
          subst h2
          exact hr
        · exact Except.noConfusion hn

/-- C1 amended, witness: `int8` with no tag directive parses via the default
mode, which is `Dec|Hex`. -/
theorem c1_amended_witness :
    intSetter (.dScalar .tInt8) false "42" ⟨"", ""⟩ =
      (parseInt .tInt8 "42" (intModeDefault .tInt8)).map SVal.vInt ∧
    intModeDefault .tInt8 = decHex :=
  ⟨(c1_amended .tInt8 "42" ⟨"", ""⟩ (by decide)).1,
   (c1_amended .tInt8 "42" ⟨"", ""⟩ (by decide)).2.1⟩

/-- C3, counterexample: a struct with two settable fields both tagged with
identifier `x` (conflicting tags): both fields match the candidate name `x`,
yet `fieldFold` returns "no match" — there is no panic, and no single field
is picked. -/
theorem c3_counterexample :
    fieldFold ⟨[⟨"A", "x", true, .scalar .tString⟩,
                ⟨"B", "x", true, .scalar .tString⟩]⟩ "x" = none ∧
    fieldMatches "x" (foldedName "x") "A" "x" true = true ∧
    fieldMatches "x" (foldedName "x") "B" "x" true = true := by
  refine ⟨by decide, by decide, by decide⟩

/-- C3 (amended): field resolution returns "no match" both when no settable
field qualifies and when more than one settable field would match the
candidate name (the matches cancel one another, as with
`reflect.FieldByNameFunc`); it panics in neither case, and it returns the
unique match otherwise. -/
theorem c3_amended (fs : List (String × String × Bool)) (name : String) :
    ((fs.enum.filter fun p =>
        fieldMatches name (foldedName name) p.2.1 p.2.2.1 p.2.2.2).length ≠ 1 →
      fieldFoldIdx fs name = none) ∧
    (∀ (i : Nat) (nm gt : String) (sb : Bool),
      (fs.enum.filter fun p =>
        fieldMatches name (foldedName name) p.2.1 p.2.2.1 p.2.2.2) = [(i, nm, gt, sb)] →
      fieldFoldIdx fs name = some (i, newTag gt)) := by
  constructor
  · intro hlen
    unfold fieldFoldIdx
    generalize hL : List.filter
      (fun p => fieldMatches name (foldedName name) p.2.1 p.2.2.1 p.2.2.2) fs.enum = L at hlen ⊢
    rcases L with _ | ⟨⟨i, nm, gt, sb⟩, _ | ⟨q, L2⟩⟩
    · rfl
    · exact absurd rfl hlen
    · rfl
  · intro i nm gt sb hf
    unfold fieldFoldIdx
    rw [hf]

/-- C3 amended, witness: with the two conflicting fields of the
counterexample the filtered match list has length 2, so resolution returns
"no match". -/
theorem c3_amended_witness :
    fieldFoldIdx [("A", "x", true), ("B", "x", true)] "x" = none :=
  (c3_amended [("A", "x", true), ("B", "x", true)] "x").1 (by decide)

/-- C4: the chain is exactly `[typeSetter, textUnmarshalerSetter, kindSetter,
scanSetter]` in that order; after any prefix of "unsupported" outcomes, a
success of the next setter ends the chain with that success, a concrete error
of the next setter ends it with that error — in both cases the remaining
setters are irrelevant (replacing them does not change the result) — and if
every setter reports "unsupported" the chain fails with that (last) error. -/
theorem c4_chain (d : DType) (blank : Bool) (val : String) (t : Tag) :
    setters = [typeSetter, textUnmarshalerSetter, kindSetter, scanSetter] ∧
    (∀ (pre post post2 : List Setter) (s : Setter) (e : GErr),
      (∀ f ∈ pre, f d blank val t = .error .unsupportedType) →
      s d blank val t = .error e → e ≠ .unsupportedType →
      chainLoop (pre ++ s :: post) d blank val t = .error e ∧
      chainLoop (pre ++ s :: post) d blank val t =
        chainLoop (pre ++ s :: post2) d blank val t) ∧
    (∀ (pre post post2 : List Setter) (s : Setter) (w : SVal),
      (∀ f ∈ pre, f d blank val t = .error .unsupportedType) →
      s d blank val t = .ok w →
      chainLoop (pre ++ s :: post) d blank val t = .ok w ∧
      chainLoop (pre ++ s :: post) d blank val t =
        chainLoop (pre ++ s :: post2) d blank val t) ∧
    (∀ ss : List Setter,
      (∀ f ∈ ss, f d blank val t = .error .unsupportedType) →
      chainLoop ss d blank val t = .error .unsupportedType) := by
  refine ⟨rfl, ?_, ?_, ?_⟩
  · intro pre post post2 s e hpre hs he
    rw [chainLoop_append_unsup pre (s :: post) d blank val t hpre,
        chainLoop_append_unsup pre (s :: post2) d blank val t hpre,
        chainLoop_cons_err s post d blank val t e hs he,
        chainLoop_cons_err s post2 d blank val t e hs he]
    exact ⟨rfl, rfl⟩
  · intro pre post post2 s w hpre hs
    rw [chainLoop_append_unsup pre (s :: post) d blank val t hpre,
        chainLoop_append_unsup pre (s :: post2) d blank val t hpre,
        chainLoop_cons_ok s post d blank val t w hs,
        chainLoop_cons_ok s post2 d blank val t w hs]
    exact ⟨rfl, rfl⟩
  · intro ss hss
    induction ss with
    | nil => rfl
    | cons s rest ih =>
      have hs := hss s (List.mem_cons_self s rest)
      have h2 := ih fun f hf => hss f (List.mem_cons_of_mem s hf)
      rw [chainLoop, hs]
      simpa using h2

/-- C4, witness: on a `bool` destination with the unparsable value `zzz`, the
first two setters report "unsupported" and `kindSetter` produces the concrete
parse error, which terminates the chain whatever comes after it. -/
theorem c4_chain_witness :
    chainLoop ([typeSetter, textUnmarshalerSetter] ++ kindSetter :: [scanSetter])
      (.dScalar .tBool) false "zzz" ⟨"", ""⟩ =
      .error (.parseErr "failed to parse zzz as a bool") :=
  ((c4_chain (.dScalar .tBool) false "zzz" ⟨"", ""⟩).2.1
    [typeSetter, textUnmarshalerSetter] [scanSetter] [] kindSetter
    (.parseErr "failed to parse zzz as a bool")
    (by
      intro f hf
      simp only [List.mem_cons, List.not_mem_nil, or_false] at hf
      rcases hf with rfl | rfl <;> decide)
    (by decide) (by decide)).1

/-- A setter reporting the sentinel passes control to the rest of the loop. -/
theorem chainLoop_cons_unsup (s : Setter) (rest : List Setter) (d : DType)
    (blank : Bool) (val : String) (t : Tag)
    (hs : s d blank val t = .error .unsupportedType) :
    chainLoop (s :: rest) d blank val t = chainLoop rest d blank val t := by
  rw [chainLoop, hs]
  simp

/-- Storing under a key makes lookup of that key return the stored value. -/
theorem alistGet_set_self {α : Type} (m : List (String × α)) (k : String) (v : α) :
    alistGet (alistSet m k v) k = some v := by
  induction m with
  | nil => simp [alistSet, alistGet]
  | cons p rest ih =>
    obtain ⟨k1, v1⟩ := p
    by_cases h : k1 = k
    · simp [alistSet, alistGet, h]
    · simp [alistSet, alistGet, h, ih]

/-- Storing under a key leaves every other key's lookup unchanged. -/
theorem alistGet_set_ne {α : Type} (m : List (String × α)) (k k2 : String) (v : α)
    (h : k2 ≠ k) : alistGet (alistSet m k v) k2 = alistGet m k2 := by
  induction m with
  | nil =>
    simp only [alistSet, alistGet]
    rw [if_neg fun hh : k = k2 => h hh.symm]
  | cons p rest ih =>
    obtain ⟨k1, v1⟩ := p
    by_cases h1 : k1 = k
    · subst h1
      have h2 : ¬(k1 = k2) := fun hh => h hh.symm
      simp [alistSet, alistGet, h2]
    · simp only [alistSet, if_neg h1]
      by_cases h2 : k1 = k2
      · simp [alistGet, h2]
      · simp [alistGet, h2, ih]

/-- Evaluation of `set` on a plain (non-map) section field, in the non-
subsection pass with no subsection name: it reduces to `setInStruct` on the
section's struct plus the write-back of that struct. -/
theorem set_plain_eq (rt : RootType) (rv : List SecVal) (heap : List HCell)
    (sect name : String) (blank : Bool) (value : String)
    (i : Nat) (tg : Tag) (st : StructType) (sv : StructVal)
    (hsect : rootFold rt sect = some (i, tg))
    (hty : (rt.fields[i]?).map RootField.ftype = some (.plainStruct st))
    (hval : rv[i]? = some (.plainStruct sv)) :
    set rt rv heap sect "" name blank value false =
      (match setInStruct st sv heap name blank value ⟨sect, none, none⟩ with
       | (sv', h', ds, r) => .done (rv.set i (.plainStruct sv')) h' ds r) := by
  unfold set
  rw [hsect]
  simp [hty, hval]

/-- Evaluation of `setInStruct` when the variable resolves to field `j`. -/
theorem setInStruct_matched (st : StructType) (sv : StructVal) (heap : List HCell)
    (name : String) (blank : Bool) (value : String) (l : Loc)
    (j : Nat) (t : Tag) (ft : VarType)
    (hname : name ≠ "")
    (hvar : fieldFold st name = some (j, t))
    (hft : (st.fields[j]?).map GField.ftype = some ft) :
    setInStruct st sv heap name blank value l =
      (match setVar sv heap j ft t blank value { l with lvar := some name } with
       | (sv', h', r) => (sv', h', [], r)) := by
  unfold setInStruct
  rw [if_neg hname, hvar]
  simp [hft]

/-- For any destination type other than `big.Int` itself, the exact-type
converter reports "unsupported". -/
theorem typeSetters_ne_big (ts : GoScalarT) (h : ts ≠ .tBigInt) :
    typeSetters (.dScalar ts) = none := by
  cases ts <;> first | rfl | exact absurd rfl h

/-- For any destination type other than the dedicated TextUnmarshaler type,
the text-unmarshal converter does not apply. -/
theorem implementsTU_not (ts : GoScalarT) (h : ∀ nm, ts ≠ .tNamedTU nm) :
    implementsTextUnmarshaler (.dScalar ts) = false := by
  cases ts with
  | tNamedTU nm => exact absurd rfl (h nm)
  | _ => rfl

/-- On a scalar destination that is neither `big.Int` nor the TextUnmarshaler
type, the chain reduces to the kind-dispatched setter whenever that setter
settles the value (succeeds or fails concretely). -/
theorem chainLoop_kind_setter (ts : GoScalarT) (blank : Bool) (value : String)
    (t : Tag) (s : Setter)
    (hbig : ts ≠ .tBigInt) (htu : ∀ nm, ts ≠ .tNamedTU nm)
    (hks : kindSetters ts.kind = some s)
    (hres : s (.dScalar ts) blank value t ≠ .error .unsupportedType) :
    chainLoop setters (.dScalar ts) blank value t =
      s (.dScalar ts) blank value t := by
  have h1 : typeSetter (.dScalar ts) blank value t = .error .unsupportedType := by
    unfold typeSetter
    rw [typeSetters_ne_big ts hbig]
  have h2 : textUnmarshalerSetter (.dScalar ts) blank value t = .error .unsupportedType := by
    unfold textUnmarshalerSetter
    rw [implementsTU_not ts htu]
    simp
  have h3 : kindSetter (.dScalar ts) blank value t = s (.dScalar ts) blank value t := by
    unfold kindSetter
    rw [show (DType.dScalar ts).kind = ts.kind from rfl, hks]
  have h4 : chainLoop setters (.dScalar ts) blank value t =
      chainLoop [kindSetter, scanSetter] (.dScalar ts) blank value t := by
    show chainLoop (typeSetter :: textUnmarshalerSetter :: [kindSetter, scanSetter])
      (.dScalar ts) blank value t = _
    rw [chainLoop_cons_unsup _ _ _ _ _ _ h1, chainLoop_cons_unsup _ _ _ _ _ _ h2]
  rw [h4]
  cases hsr : s (.dScalar ts) blank value t with
  | ok v => rw [chainLoop_cons_ok _ _ _ _ _ _ v (h3.trans hsr)]
  | error e =>
    have hne : e ≠ .unsupportedType := fun hh => hres (by rw [hsr, hh])
    rw [chainLoop_cons_err _ _ _ _ _ _ e (h3.trans hsr) hne]

/-- C10: a tuple whose section name matches no root field is reported as an
`extraData` diagnostic at section granularity in *both* passes (the check
precedes the `subsectPass` shape test), and neither the config values nor the
heap are modified by either call; calling both passes therefore collects the
same diagnostic twice. -/
theorem c10_unmatched_section (rt : RootType) (rv : List SecVal)
    (heap : List HCell) (sect sub name : String) (blank : Bool) (value : String)
    (hsect : rootFold rt sect = none) :
    ∀ pass : Bool, set rt rv heap sect sub name blank value pass =
      .done rv heap [.extraData ⟨sect, none, none⟩] none := by
  intro pass
  unfold set
  rw [hsect]

/-- C10, witness: a config with no fields leaves any section unresolved; both
passes collect the identical section-level diagnostic and change nothing. -/
theorem c10_unmatched_section_witness :
    set ⟨[]⟩ [] [] "boGus" "s" "n" false "v" true =
      .done [] [] [.extraData ⟨"boGus", none, none⟩] none ∧
    set ⟨[]⟩ [] [] "boGus" "s" "n" false "v" false =
      .done [] [] [.extraData ⟨"boGus", none, none⟩] none :=
  ⟨c10_unmatched_section ⟨[]⟩ [] [] "boGus" "s" "n" false "v" (by decide) true,
   c10_unmatched_section ⟨[]⟩ [] [] "boGus" "s" "n" false "v" (by decide) false⟩

/-- C9: on a flat `map[string]string` section field (subsection pass), an
empty value creates the map if nil and stores nothing — whatever the blank
flag, subsection and variable name — while a non-empty value stores exactly
the one entry under `name`, or under `"<subsection> <name>"` when a
subsection name is present; the heap is untouched, nothing is collected, and
the value-parsing chain plays no part (only map operations occur).  The two
final conjuncts make "exactly one entry" precise for the map update. -/
theorem c9_flat_map (rt : RootType) (rv : List SecVal) (heap : List HCell)
    (sect sub name : String) (blank : Bool) (value : String)
    (i : Nat) (tg : Tag) (mo : Option (List (String × String)))
    (hsect : rootFold rt sect = some (i, tg))
    (hty : (rt.fields[i]?).map RootField.ftype = some SecType.mapStrStr)
    (hval : rv[i]? = some (.mapSS mo)) :
    (value = "" → set rt rv heap sect sub name blank value true =
      .done (rv.set i (.mapSS (some (mo.getD [])))) heap [] none) ∧
    (value ≠ "" → set rt rv heap sect sub name blank value true =
      .done (rv.set i (.mapSS (some (alistSet (mo.getD [])
        (if sub ≠ "" then sub ++ " " ++ name else name) value)))) heap [] none) ∧
    (∀ (km : List (String × String)) (k v : String),
      alistGet (alistSet km k v) k = some v) ∧
    (∀ (km : List (String × String)) (k k2 v : String), k2 ≠ k →
      alistGet (alistSet km k v) k2 = alistGet km k2) := by
  refine ⟨?_, ?_, fun km k v => alistGet_set_self km k v,
    fun km k k2 v h => alistGet_set_ne km k k2 v h⟩
  · intro hv
    subst hv
    unfold set
    rw [hsect]
    cases mo with
    | none => simp [hty, hval]
    | some m => simp [hty, hval]
  · intro hv
    unfold set
    rw [hsect]
    cases mo with
    | none => simp [hty, hval, hv]
    | some m => simp [hty, hval, hv]

/-- C9, witness: with a nil map, an empty value materializes the empty map
and stores nothing; a non-empty value stores one entry under the
space-joined key. -/
theorem c9_flat_map_witness :
    set ⟨[⟨"Flat", "", true, .mapStrStr⟩]⟩ [.mapSS none] [] "Flat" "s" "k" false "" true =
      .done [.mapSS (some [])] [] [] none ∧
    set ⟨[⟨"Flat", "", true, .mapStrStr⟩]⟩ [.mapSS none] [] "Flat" "s" "k" false "v" true =
      .done [.mapSS (some [("s k", "v")])] [] [] none := by
  constructor
  · exact (c9_flat_map ⟨[⟨"Flat", "", true, .mapStrStr⟩]⟩ [.mapSS none] []
      "Flat" "s" "k" false "" 0 ⟨"", ""⟩ none (by decide) (by decide) (by decide)).1 rfl
  · exact (c9_flat_map ⟨[⟨"Flat", "", true, .mapStrStr⟩]⟩ [.mapSS none] []
      "Flat" "s" "k" false "v" 0 ⟨"", ""⟩ none (by decide) (by decide) (by decide)).2.1
      (by decide)

/-- C8: on a boolean-kind destination field, a blank assignment stores
`true`; the value `"false"` stores `false`; the value `"not-a-bool"` leaves
the field unchanged and returns a located data error (which the caller
collects); and for every blank/value combination the call returns normally —
the outcome is never a panic. -/
theorem c8_bool_field (rt : RootType) (rv : List SecVal) (heap : List HCell)
    (sect name : String) (i j : Nat) (tg t : Tag) (st : StructType)
    (sv : StructVal) (ts : GoScalarT)
    (hsect : rootFold rt sect = some (i, tg))
    (hty : (rt.fields[i]?).map RootField.ftype = some (.plainStruct st))
    (hval : rv[i]? = some (.plainStruct sv))
    (hname : name ≠ "")
    (hvar : fieldFold st name = some (j, t))
    (hft : (st.fields[j]?).map GField.ftype = some (.scalar ts))
    (hkind : ts.kind = .kBool) :
    set rt rv heap sect "" name true "" false =
      .done (rv.set i (.plainStruct (sv.set j (.scalar (.vBool true))))) heap [] none ∧
    set rt rv heap sect "" name false "false" false =
      .done (rv.set i (.plainStruct (sv.set j (.scalar (.vBool false))))) heap [] none ∧
    set rt rv heap sect "" name false "not-a-bool" false =
      .done (rv.set i (.plainStruct sv)) heap []
        (some (.locErr "failed to parse not-a-bool as a bool" ⟨sect, none, some name⟩)) ∧
    (∀ (blank : Bool) (value : String), ∃ rv2 h2 ds r,
      set rt rv heap sect "" name blank value false = .done rv2 h2 ds r) := by
  have hbig : ts ≠ .tBigInt := by
    intro hh
    rw [hh] at hkind
    simp [GoScalarT.kind] at hkind
  have htu : ∀ nm, ts ≠ .tNamedTU nm := by
    intro nm hh
    rw [hh] at hkind
    simp [GoScalarT.kind] at hkind
  have hks : kindSetters ts.kind = some boolSetter := by
    rw [hkind]
    rfl
  have hch1 : chainLoop setters (.dScalar ts) true "" t = .ok (.vBool true) := by
    rw [chainLoop_kind_setter ts true "" t boolSetter hbig htu hks
      (by simp [boolSetter])]
    rfl
  have hch2 : chainLoop setters (.dScalar ts) false "false" t = .ok (.vBool false) := by
    rw [chainLoop_kind_setter ts false "false" t boolSetter hbig htu hks
      (by simp [boolSetter, parseBool, Except.map])]
    rfl
  have hch3 : chainLoop setters (.dScalar ts) false "not-a-bool" t =
      .error (.parseErr "failed to parse not-a-bool as a bool") := by
    rw [chainLoop_kind_setter ts false "not-a-bool" t boolSetter hbig htu hks
      (by simp [boolSetter, parseBool, Except.map])]
    rfl
  refine ⟨?_, ?_, ?_, ?_⟩
  · rw [set_plain_eq rt rv heap sect name true "" i tg st sv hsect hty hval,
        setInStruct_matched st sv heap name true "" ⟨sect, none, none⟩ j t
          (.scalar ts) hname hvar hft]
    simp [setVar, hch1]
  · rw [set_plain_eq rt rv heap sect name false "false" i tg st sv hsect hty hval,
        setInStruct_matched st sv heap name false "false" ⟨sect, none, none⟩ j t
          (.scalar ts) hname hvar hft]
    simp [setVar, hch2]
  · rw [set_plain_eq rt rv heap sect name false "not-a-bool" i tg st sv hsect hty hval,
        setInStruct_matched st sv heap name false "not-a-bool" ⟨sect, none, none⟩ j t
          (.scalar ts) hname hvar hft]
    simp [setVar, hch3, GErr.msg]
  · intro blank value
    rcases hsi : setInStruct st sv heap name blank value ⟨sect, none, none⟩
      with ⟨sv2, h2, ds2, r2⟩
    refine ⟨rv.set i (.plainStruct sv2), h2, ds2, r2, ?_⟩
    rw [set_plain_eq rt rv heap sect name blank value i tg st sv hsect hty hval, hsi]

/-- C8, witness: a one-section, one-bool-field schema shows all three
behaviors concretely. -/
theorem c8_bool_field_witness :
    set ⟨[⟨"S", "", true, .plainStruct ⟨[⟨"B", "", true, .scalar .tBool⟩]⟩⟩]⟩
        [.plainStruct [.scalar (.vBool false)]] [] "S" "" "b" true "" false =
      .done [.plainStruct [.scalar (.vBool true)]] [] [] none ∧
    set ⟨[⟨"S", "", true, .plainStruct ⟨[⟨"B", "", true, .scalar .tBool⟩]⟩⟩]⟩
        [.plainStruct [.scalar (.vBool false)]] [] "S" "" "b" false "not-a-bool" false =
      .done [.plainStruct [.scalar (.vBool false)]] [] []
        (some (.locErr "failed to parse not-a-bool as a bool" ⟨"S", none, some "b"⟩)) := by
  have h := c8_bool_field
    ⟨[⟨"S", "", true, .plainStruct ⟨[⟨"B", "", true, .scalar .tBool⟩]⟩⟩]⟩
    [.plainStruct [.scalar (.vBool false)]] [] "S" "b" 0 0 ⟨"", ""⟩ ⟨"", ""⟩
    ⟨[⟨"B", "", true, .scalar .tBool⟩]⟩ [.scalar (.vBool false)] .tBool
    (by decide) (by decide) (by decide) (by decide) (by decide) (by decide) rfl
  exact ⟨h.1, h.2.2.1⟩

/-- C6: a single-valued field of unnamed pointer type that is nil: a chain
success allocates a fresh cell holding the parsed value and sets the field's
pointer to it; a chain failure returns the located error and leaves both the
field (still nil) and the heap untouched. -/
theorem c6_deref_alloc (sv : StructVal) (heap : List HCell) (i : Nat)
    (elem : GoScalarT) (t : Tag) (blank : Bool) (value : String) (l : Loc)
    (hnil : sv[i]? = some (.ptr none)) :
    (∀ w, chainLoop setters (.dScalar elem) blank value t = .ok w →
      setVar sv heap i (.ptrScalar elem false) t blank value l =
        (sv.set i (.ptr (some heap.length)), heap ++ [.hScalar w], none)) ∧
    (∀ e, chainLoop setters (.dScalar elem) blank value t = .error e →
      setVar sv heap i (.ptrScalar elem false) t blank value l =
        (sv, heap, some (.locErr (GErr.msg e) l))) := by
  constructor
  · intro w hw
    simp [setVar, hnil, hw]
  · intro e he
    simp [setVar, hnil, he]

/-- C6, witness: a nil `*int` field: value `7` allocates a fresh cell and
points the field at it; the unparsable value `zz` leaves the field nil and
the heap empty, returning the located parse error. -/
theorem c6_deref_alloc_witness :
    setVar [.ptr none] [] 0 (.ptrScalar .tInt false) ⟨"", ""⟩ false "7"
        ⟨"S", none, some "v"⟩ =
      ([.ptr (some 0)], [.hScalar (.vInt 7)], none) ∧
    setVar [.ptr none] [] 0 (.ptrScalar .tInt false) ⟨"", ""⟩ false "zz"
        ⟨"S", none, some "v"⟩ =
      ([.ptr none], [], some (.locErr "invalid int zz" ⟨"S", none, some "v"⟩)) :=
  ⟨(c6_deref_alloc [.ptr none] [] 0 .tInt ⟨"", ""⟩ false "7"
      ⟨"S", none, some "v"⟩ (by decide)).1 (.vInt 7) (by decide),
   (c6_deref_alloc [.ptr none] [] 0 .tInt ⟨"", ""⟩ false "zz"
      ⟨"S", none, some "v"⟩ (by decide)).2 (.parseErr "invalid int zz") (by decide)⟩

/-- C2, counterexample: a section whose catch-all (`extra_values`-tagged)
field has type `int` — neither recognized map shape.  Applying a tuple with
an unmatched variable name does not panic: the formatted schema error is
handed to the collector as a diagnostic and the call returns normally. -/
theorem c2_counterexample :
    set ⟨[⟨"S", "", true, .plainStruct ⟨[⟨"X", "extra_values", true, .scalar .tInt⟩]⟩⟩]⟩
        [.plainStruct [.scalar (.vInt 0)]] [] "S" "" "bogus" false "v" false =
      .done [.plainStruct [.scalar (.vInt 0)]] []
        [.plainErr "extra data field must be of type map[string]string or map[string][]string, was int"]
        none ∧
    ∀ msg,
      set ⟨[⟨"S", "", true, .plainStruct ⟨[⟨"X", "extra_values", true, .scalar .tInt⟩]⟩⟩]⟩
        [.plainStruct [.scalar (.vInt 0)]] [] "S" "" "bogus" false "v" false ≠
      .panicked msg := by
  have h1 : set ⟨[⟨"S", "", true, .plainStruct ⟨[⟨"X", "extra_values", true, .scalar .tInt⟩]⟩⟩]⟩
      [.plainStruct [.scalar (.vInt 0)]] [] "S" "" "bogus" false "v" false =
      .done [.plainStruct [.scalar (.vInt 0)]] []
        [.plainErr "extra data field must be of type map[string]string or map[string][]string, was int"]
        none := by decide
  exact ⟨h1, fun msg hm => SetOutcome.noConfusion (h1.symm.trans hm)⟩

/-- C2 (amended): when the declared catch-all field's type is neither
`map[string]string` nor `map[string][]string`, applying a tuple whose
variable name matches no field makes the engine *collect* the formatted
schema error as a diagnostic and return normally (section struct and heap
unchanged); it does not panic. -/
theorem c2_amended (rt : RootType) (rv : List SecVal) (heap : List HCell)
    (sect name : String) (blank : Bool) (value : String)
    (i k : Nat) (tg : Tag) (st : StructType) (sv : StructVal) (f : GField)
    (hsect : rootFold rt sect = some (i, tg))
    (hty : (rt.fields[i]?).map RootField.ftype = some (.plainStruct st))
    (hval : rv[i]? = some (.plainStruct sv))
    (hname : name ≠ "")
    (hvar : fieldFold st name = none)
    (hedf : findExtraDataField st = some k)
    (hf : st.fields[k]? = some f)
    (hb1 : f.ftype ≠ .mapStrStr)
    (hb2 : f.ftype ≠ .mapStrListStr) :
    set rt rv heap sect "" name blank value false =
      .done (rv.set i (.plainStruct sv)) heap
        [.plainErr ("extra data field must be of type map[string]string or map[string][]string, was "
          ++ f.ftype.showT)] none := by
  have hsed : setExtraDataInSection st sv name value ⟨sect, none, some name⟩ =
      (sv, true,
       .plainErr ("extra data field must be of type map[string]string or map[string][]string, was "
         ++ f.ftype.showT)) := by
    obtain ⟨fn, gt, sb, fty⟩ := f
    cases fty with
    | mapStrStr => exact absurd rfl hb1
    | mapStrListStr => exact absurd rfl hb2
    | scalar ts => simp [setExtraDataInSection, hedf, hf]
    | slice e n => simp [setExtraDataInSection, hedf, hf]
    | ptrScalar e n => simp [setExtraDataInSection, hedf, hf]
    | ptrSlice n en e => simp [setExtraDataInSection, hedf, hf]
  unfold set
  rw [hsect]
  simp [hty, hval, setInStruct, hname, hvar, hsed]

/-- C2 amended, witness: the concrete schema of the counterexample, through
the amended theorem. -/
theorem c2_amended_witness :
    set ⟨[⟨"S", "", true, .plainStruct ⟨[⟨"Y", "extra_values", true, .scalar .tBool⟩]⟩⟩]⟩
        [.plainStruct [.scalar (.vBool false)]] [] "S" "" "nope" false "w" false =
      .done [.plainStruct [.scalar (.vBool false)]] []
        [.plainErr "extra data field must be of type map[string]string or map[string][]string, was bool"]
        none :=
  c2_amended ⟨[⟨"S", "", true, .plainStruct ⟨[⟨"Y", "extra_values", true, .scalar .tBool⟩]⟩⟩]⟩
    [.plainStruct [.scalar (.vBool false)]] [] "S" "nope" false "w" 0 0 ⟨"", ""⟩
    ⟨[⟨"Y", "extra_values", true, .scalar .tBool⟩]⟩ [.scalar (.vBool false)]
    ⟨"Y", "extra_values", true, .scalar .tBool⟩
    (by decide) (by decide) (by decide) (by decide) (by decide) (by decide)
    (by decide) (by decide) (by decide)

/-- One multi-valued assignment step (field `i` of unnamed-slice or
unnamed-pointer-to-unnamed-slice type): a successful chain appends the parsed
element at the end of the current sequence, and a blank assignment clears the
sequence; the shape invariant is preserved. -/
theorem setVar_multi_step (sv : StructVal) (heap : List HCell) (i : Nat)
    (elem : GoScalarT) (ft : VarType) (t : Tag) (l : Loc)
    (hft : ft = .slice elem false ∨ ft = .ptrSlice false false elem)
    (hsh : MShape sv heap i ft) :
    (∀ (v : String) (w : SVal),
      chainLoop setters (.dScalar elem) false v t = .ok w →
      readMulti (setVar sv heap i ft t false v l).1
          (setVar sv heap i ft t false v l).2.1 i =
        readMulti sv heap i ++ [w] ∧
      MShape (setVar sv heap i ft t false v l).1
        (setVar sv heap i ft t false v l).2.1 i ft) ∧
    (readMulti (setVar sv heap i ft t true "" l).1
        (setVar sv heap i ft t true "" l).2.1 i = [] ∧
     MShape (setVar sv heap i ft t true "" l).1
       (setVar sv heap i ft t true "" l).2.1 i ft) := by
  rcases hft with rfl | rfl
  · rcases hget : sv[i]? with _ | vv
    · simp [MShape, hget] at hsh
    · rcases vv with v0 | vs | a | mm | mm
      · simp [MShape, hget] at hsh
      · have hi : i < sv.length := (List.getElem?_eq_some.mp hget).fst
        refine ⟨?_, ?_, ?_⟩
        · intro v w hw
          constructor
          · simp [setVar, readMulti, hget, hw, VarVal.asSlice,
              List.getElem?_set_eq_of_lt _ hi]
          · simp [setVar, MShape, hw, List.getElem?_set_eq_of_lt _ hi]
        · simp [setVar, readMulti, List.getElem?_set_eq_of_lt _ hi]
        · simp [setVar, MShape, List.getElem?_set_eq_of_lt _ hi]
      · simp [MShape, hget] at hsh
      · simp [MShape, hget] at hsh
      · simp [MShape, hget] at hsh
  · rcases hget : sv[i]? with _ | vv
    · simp [MShape, hget] at hsh
    · rcases vv with v0 | vs | a | mm | mm
      · simp [MShape, hget] at hsh
      · simp [MShape, hget] at hsh
      · have hi : i < sv.length := (List.getElem?_eq_some.mp hget).fst
        rcases a with _ | a
        · -- nil pointer: allocated on entry
          have hsv1 : (sv.set i (.ptr (some heap.length)))[i]? =
              some (.ptr (some heap.length)) := List.getElem?_set_eq_of_lt _ hi
          have hlen1 : heap.length < (heap ++ [HCell.hSlice []]).length := by simp
          refine ⟨?_, ?_, ?_⟩
          · intro v w hw
            constructor
            · simp [setVar, readMulti, hget, hw, HCell.asSlice, hsv1,
                List.getElem?_concat_length, List.getElem?_set_eq_of_lt _ hlen1]
            · simp [setVar, MShape, hget, hw, hsv1, List.getElem?_set_eq_of_lt _ hlen1]
          · simp [setVar, readMulti, hget, hsv1, HCell.asSlice,
              List.getElem?_set_eq_of_lt _ hlen1]
          · simp [setVar, MShape, hget, hsv1, List.getElem?_set_eq_of_lt _ hlen1]
        · -- pointer into the heap
          have ha : a < heap.length := by simpa [MShape, hget] using hsh
          refine ⟨?_, ?_, ?_⟩
          · intro v w hw
            constructor
            · simp [setVar, readMulti, hget, hw, HCell.asSlice,
                List.getElem?_set_eq_of_lt _ ha]
            · simp [setVar, MShape, hget, hw, ha]
          · simp [setVar, readMulti, hget, HCell.asSlice,
              List.getElem?_set_eq_of_lt _ ha]
          · simp [setVar, MShape, hget, ha]
      · simp [MShape, hget] at hsh
      · simp [MShape, hget] at hsh

/-- C5: starting from any well-shaped multi-valued field, N successive
non-blank assignments whose values all parse produce the previous sequence
extended by the N parsed elements in arrival order (so length grows by
exactly N), and a subsequent blank assignment resets the sequence to
length 0. -/
theorem c5_multival (i : Nat) (elem : GoScalarT) (ft : VarType) (t : Tag)
    (l : Loc) (vals : List String) (ws : List SVal)
    (hft : ft = .slice elem false ∨ ft = .ptrSlice false false elem) :
    ∀ (sv : StructVal) (heap : List HCell),
      MShape sv heap i ft →
      List.Forall₂ (fun v w => chainLoop setters (.dScalar elem) false v t = .ok w)
        vals ws →
      readMulti (applySeq i ft t l (sv, heap) vals).1
          (applySeq i ft t l (sv, heap) vals).2 i =
        readMulti sv heap i ++ ws ∧
      ws.length = vals.length ∧
      readMulti
        (setVar (applySeq i ft t l (sv, heap) vals).1
          (applySeq i ft t l (sv, heap) vals).2 i ft t true "" l).1
        (setVar (applySeq i ft t l (sv, heap) vals).1
          (applySeq i ft t l (sv, heap) vals).2 i ft t true "" l).2.1 i = [] := by
  induction vals generalizing ws with
  | nil =>
    intro sv heap hsh hfa
    cases hfa
    refine ⟨by simp [applySeq], rfl, ?_⟩
    have hb := (setVar_multi_step sv heap i elem ft t l hft hsh).2
    simpa [applySeq] using hb.1
  | cons v vs ih =>
    intro sv heap hsh hfa
    cases hfa with
    | cons hw hrest =>
      rename_i w ws2
      have hstep := (setVar_multi_step sv heap i elem ft t l hft hsh).1 v w hw
      have happ : applySeq i ft t l (sv, heap) (v :: vs) =
          applySeq i ft t l ((setVar sv heap i ft t false v l).1,
            (setVar sv heap i ft t false v l).2.1) vs := by
        rcases hsv : setVar sv heap i ft t false v l with ⟨a2, b2, c2⟩
        simp [applySeq, hsv]
      have hih := ih ws2 _ _ hstep.2 hrest
      rw [happ]
      refine ⟨?_, by simp [hih.2.1], hih.2.2⟩
      rw [hih.1, hstep.1]
      simp

/-- C5, witness: three assignments to an unnamed `[]string` field append in
order, and a blank then clears the sequence. -/
theorem c5_multival_witness :
    readMulti (applySeq 0 (.slice .tString false) ⟨"", ""⟩ ⟨"S", none, some "l"⟩
        ([.slice []], []) ["a", "b", "c"]).1
      (applySeq 0 (.slice .tString false) ⟨"", ""⟩ ⟨"S", none, some "l"⟩
        ([.slice []], []) ["a", "b", "c"]).2 0 =
      [.vStr "a", .vStr "b", .vStr "c"] ∧
    readMulti
      (setVar (applySeq 0 (.slice .tString false) ⟨"", ""⟩ ⟨"S", none, some "l"⟩
          ([.slice []], []) ["a", "b", "c"]).1
        (applySeq 0 (.slice .tString false) ⟨"", ""⟩ ⟨"S", none, some "l"⟩
          ([.slice []], []) ["a", "b", "c"]).2 0 (.slice .tString false) ⟨"", ""⟩
        true "" ⟨"S", none, some "l"⟩).1
      (setVar (applySeq 0 (.slice .tString false) ⟨"", ""⟩ ⟨"S", none, some "l"⟩
          ([.slice []], []) ["a", "b", "c"]).1
        (applySeq 0 (.slice .tString false) ⟨"", ""⟩ ⟨"S", none, some "l"⟩
          ([.slice []], []) ["a", "b", "c"]).2 0 (.slice .tString false) ⟨"", ""⟩
        true "" ⟨"S", none, some "l"⟩).2.1 0 = [] := by
  have h := c5_multival 0 .tString (.slice .tString false) ⟨"", ""⟩
    ⟨"S", none, some "l"⟩ ["a", "b", "c"] [.vStr "a", .vStr "b", .vStr "c"]
    (Or.inl rfl) [.slice []] [] (by simp [MShape])
    (.cons (by decide) (.cons (by decide) (.cons (by decide) .nil)))
  exact ⟨h.1.trans (by decide), h.2.2⟩

/-- Observation of one field value is stable under heap changes that
preserve every cell below `n`, provided the field's pointer (if any) stays
below `n`. -/
theorem obsVar_stable (h h2 : List HCell) (n : Nat) (v : VarVal)
    (hpre : ∀ a, a < n → h2[a]? = h[a]?)
    (hlt : ∀ a, varAddr v = some a → a < n) :
    obsVar h2 v = obsVar h v := by
  cases v with
  | ptr a =>
    cases a with
    | none => rfl
    | some a =>
      have ha : a < n := hlt a rfl
      simp [obsVar, hpre a ha, List.get?_eq_getElem?]
  | scalar v => rfl
  | slice vs => rfl
  | mapSS m => rfl
  | mapSL m => rfl

/-- Observation of a whole struct is stable under prefix-preserving heap
changes when all its pointers stay below `n`. -/
theorem obsStruct_stable (h h2 : List HCell) (n : Nat) (sv : StructVal)
    (hpre : ∀ a, a < n → h2[a]? = h[a]?)
    (hlt : ∀ a ∈ structAddrs sv, a < n) :
    obsStruct h2 sv = obsStruct h sv := by
  induction sv with
  | nil => rfl
  | cons v rest ih =>
    have hv : ∀ a, varAddr v = some a → a < n := by
      intro a hva
      exact hlt a (by simp [structAddrs, List.filterMap_cons, hva])
    have hr : ∀ a ∈ structAddrs rest, a < n := by
      intro a ha
      apply hlt
      simp only [structAddrs, List.filterMap_cons]
      cases hva : varAddr v with
      | none => simpa [structAddrs] using ha
      | some b => simp [structAddrs] at ha ⊢; exact Or.inr ha
    simp only [obsStruct, List.map_cons]
    rw [obsVar_stable h h2 n v hpre hv]
    have := ih hr
    simp only [obsStruct] at this
    rw [this]

/-- An address held by an updated struct comes from the new value or from
the old struct. -/
theorem structAddrs_set (sv : StructVal) (i : Nat) (v : VarVal) (a : Nat)
    (ha : a ∈ structAddrs (sv.set i v)) :
    a ∈ structAddrs sv ∨ varAddr v = some a := by
  simp only [structAddrs, List.mem_filterMap] at ha ⊢
  rcases ha with ⟨w, hw, hwa⟩
  rcases List.mem_or_eq_of_mem_set hw with hw2 | rfl
  · exact Or.inl ⟨w, hw2, hwa⟩
  · exact Or.inr hwa

/-- An address read out of a struct via `getElem?` is one of its
`structAddrs`. -/
theorem structAddrs_of_getElem (sv : StructVal) (i a : Nat)
    (h : sv[i]? = some (.ptr (some a))) : a ∈ structAddrs sv := by
  simp only [structAddrs, List.mem_filterMap]
  exact ⟨.ptr (some a), List.getElem?_mem h, rfl⟩

/-- Specification of the one-field deep copy: the old heap is preserved, the
heap only grows, the copy's pointer (if any) is fresh and in range, and the
copy observes equal to the original. -/
theorem copyVarVal_spec (h : List HCell) (v : VarVal) :
    (∀ a, a < h.length → (copyVarVal h v).2[a]? = h[a]?) ∧
    h.length ≤ (copyVarVal h v).2.length ∧
    (∀ a, varAddr (copyVarVal h v).1 = some a →
      h.length ≤ a ∧ a < (copyVarVal h v).2.length) ∧
    obsVar (copyVarVal h v).2 (copyVarVal h v).1 = obsVar h v := by
  cases v with
  | ptr a =>
    cases a with
    | none => exact ⟨fun a ha => rfl, le_refl _, by simp [copyVarVal, varAddr], rfl⟩
    | some a =>
      cases hc : h[a]? with
      | none =>
        refine ⟨fun a2 ha2 => by simp [copyVarVal, List.get?_eq_getElem?, hc], ?_, ?_, ?_⟩
        · simp [copyVarVal, List.get?_eq_getElem?, hc]
        · simp [copyVarVal, List.get?_eq_getElem?, hc, varAddr]
        · simp [copyVarVal, obsVar, List.get?_eq_getElem?, hc]
      | some c =>
        refine ⟨?_, ?_, ?_, ?_⟩
        · intro a2 ha2
          simp only [copyVarVal, List.get?_eq_getElem?, hc]
          exact List.getElem?_append_left ha2
        · simp [copyVarVal, List.get?_eq_getElem?, hc]
        · intro a2 ha2
          simp only [copyVarVal, List.get?_eq_getElem?, hc, varAddr,
            Option.some.injEq] at ha2
          subst ha2
          simp [copyVarVal, List.get?_eq_getElem?, hc]
        · simp [copyVarVal, obsVar, List.get?_eq_getElem?, hc,
            List.getElem?_concat_length]
  | scalar w => exact ⟨fun a ha => rfl, le_refl _, by simp [copyVarVal, varAddr], rfl⟩
  | slice vs => exact ⟨fun a ha => rfl, le_refl _, by simp [copyVarVal, varAddr], rfl⟩
  | mapSS m => exact ⟨fun a ha => rfl, le_refl _, by simp [copyVarVal, varAddr], rfl⟩
  | mapSL m => exact ⟨fun a ha => rfl, le_refl _, by simp [copyVarVal, varAddr], rfl⟩

/-- Specification of the struct deep copy: prefix preservation, heap growth,
freshness and closedness of the copy's pointers, and (for a closed source)
observational equality with the source. -/
theorem deepCopyStruct_spec (dv : StructVal) (h : List HCell) :
    (∀ a, a < h.length → (deepCopyStruct dv h).2[a]? = h[a]?) ∧
    h.length ≤ (deepCopyStruct dv h).2.length ∧
    AddrsGE (deepCopyStruct dv h).1 h.length ∧
    ClosedSv (deepCopyStruct dv h).1 (deepCopyStruct dv h).2 ∧
    ((∀ a ∈ structAddrs dv, a < h.length) →
      obsStruct (deepCopyStruct dv h).2 (deepCopyStruct dv h).1 =
        obsStruct h dv) := by
  induction dv generalizing h with
  | nil =>
    refine ⟨fun a ha => rfl, le_refl _, ?_, ?_, fun _ => rfl⟩
    · intro a ha
      simp [deepCopyStruct, structAddrs] at ha
    · intro a ha
      simp [deepCopyStruct, structAddrs] at ha
  | cons v rest ih =>
    obtain ⟨hpre1, hlen1, hfresh1, hobs1⟩ := copyVarVal_spec h v
    rcases hcv : copyVarVal h v with ⟨v2, h2⟩
    rw [hcv] at hpre1 hlen1 hfresh1 hobs1
    obtain ⟨hpre2, hlen2, hge2, hcl2, hobs2⟩ := ih h2
    rcases hdc : deepCopyStruct rest h2 with ⟨out, h3⟩
    rw [hdc] at hpre2 hlen2 hge2 hcl2 hobs2
    have hstep : deepCopyStruct (v :: rest) h = (v2 :: out, h3) := by
      simp [deepCopyStruct, hcv, hdc]
    rw [hstep]
    have hpre13 : ∀ a, a < h.length → h3[a]? = h[a]? := fun a ha =>
      (hpre2 a (lt_of_lt_of_le ha hlen1)).trans (hpre1 a ha)
    refine ⟨hpre13, le_trans hlen1 hlen2, ?_, ?_, ?_⟩
    · intro a ha
      simp only [structAddrs, List.filterMap_cons] at ha
      cases hva : varAddr v2 with
      | none =>
        rw [hva] at ha
        exact le_trans hlen1 (hge2 a ha)
      | some b =>
        rw [hva] at ha
        simp only [List.mem_cons] at ha
        rcases ha with rfl | ha
        · exact (hfresh1 a hva).1
        · exact le_trans hlen1 (hge2 a ha)
    · intro a ha
      simp only [structAddrs, List.filterMap_cons] at ha
      cases hva : varAddr v2 with
      | none =>
        rw [hva] at ha
        exact hcl2 a ha
      | some b =>
        rw [hva] at ha
        simp only [List.mem_cons] at ha
        rcases ha with rfl | ha
        · exact lt_of_lt_of_le (hfresh1 a hva).2 hlen2
        · exact hcl2 a ha
    · intro hclosed
      have hclv : ∀ a, varAddr v = some a → a < h.length := by
        intro a hva
        exact hclosed a (by simp [structAddrs, List.filterMap_cons, hva])
      have hclr : ∀ a ∈ structAddrs rest, a < h.length := by
        intro a ha
        apply hclosed
        simp only [structAddrs, List.filterMap_cons]
        cases hva : varAddr v with
        | none => simpa [structAddrs] using ha
        | some b => simp [structAddrs] at ha ⊢; exact Or.inr ha
      simp only [obsStruct, List.map_cons, List.cons.injEq]
      constructor
      · have hv2lt : ∀ a, varAddr v2 = some a → a < h2.length :=
          fun a hva => (hfresh1 a hva).2
        rw [obsVar_stable h2 h3 h2.length v2 (fun a ha => hpre2 a ha) hv2lt]
        exact hobs1
      · have hrest : obsStruct h3 out = obsStruct h2 rest :=
          hobs2 (fun a ha => lt_of_lt_of_le (hclr a ha) hlen1)
        have hrest2 : obsStruct h2 rest = obsStruct h rest :=
          obsStruct_stable h h2 h.length rest (fun a ha => hpre1 a ha) hclr
        simpa [obsStruct] using hrest.trans hrest2

/-- Updating a field whose new value points at or above `n` preserves the
lower bound on a struct's pointers. -/
theorem addrsGE_set (sv : StructVal) (n i : Nat) (v : VarVal)
    (hge : AddrsGE sv n) (hv : ∀ a, varAddr v = some a → n ≤ a) :
    AddrsGE (sv.set i v) n := by
  intro a ha
  rcases structAddrs_set sv i v a ha with h | h
  · exact hge a h
  · exact hv a h

/-- Writing a cell at or above `n` preserves the heap below `n`. -/
theorem frame_set (heap : List HCell) (a2 : Nat) (c : HCell) (n : Nat)
    (hna : n ≤ a2) (hn : n ≤ heap.length) :
    n ≤ (heap.set a2 c).length ∧
    ∀ a, a < n → (heap.set a2 c)[a]? = heap[a]? :=
  ⟨by simpa using hn, fun a ha => List.getElem?_set_ne (by omega)⟩

/-- Appending a cell preserves the heap below `n`. -/
theorem frame_append (heap : List HCell) (c : HCell) (n : Nat)
    (hn : n ≤ heap.length) :
    n ≤ (heap ++ [c]).length ∧
    ∀ a, a < n → (heap ++ [c])[a]? = heap[a]? := by
  refine ⟨by simp; omega, fun a ha => List.getElem?_append_left (by omega)⟩

/-- Appending a cell and rewriting it preserves the heap below `n`. -/
theorem frame_append_set (heap : List HCell) (c c2 : HCell) (n : Nat)
    (hn : n ≤ heap.length) :
    n ≤ ((heap ++ [c]).set heap.length c2).length ∧
    ∀ a, a < n → ((heap ++ [c]).set heap.length c2)[a]? = heap[a]? := by
  refine ⟨by simp; omega, fun a ha => ?_⟩
  rw [List.getElem?_set_ne (by omega)]
  exact List.getElem?_append_left (by omega)

/-- Heap/address frame of one variable assignment: if every pointer of the
struct sits at or above `n` and the heap extends at least to `n`, the result
struct's pointers still sit at or above `n`, the heap still extends to `n`,
and no cell below `n` changes. -/
theorem setVar_frame (sv : StructVal) (heap : List HCell) (i : Nat)
    (ft : VarType) (t : Tag) (blank : Bool) (value : String) (l : Loc)
    (n : Nat) (hge : AddrsGE sv n) (hn : n ≤ heap.length) :
    AddrsGE (setVar sv heap i ft t blank value l).1 n ∧
    n ≤ (setVar sv heap i ft t blank value l).2.1.length ∧
    (∀ a, a < n → (setVar sv heap i ft t blank value l).2.1[a]? = heap[a]?) := by
  cases ft with
  | scalar ts =>
    cases hch : chainLoop setters (.dScalar ts) blank value t with
    | ok w =>
      simp only [setVar, hch]
      exact ⟨addrsGE_set sv n i _ hge (by simp [varAddr]), hn, by simp⟩
    | error e =>
      simp only [setVar, hch]
      exact ⟨hge, hn, by simp⟩
  | slice elem named =>
    cases named with
    | true =>
      cases hch : chainLoop setters (.dOther .kSlice) blank value t with
      | ok w =>
        simp only [setVar, hch]
        exact ⟨hge, hn, by simp⟩
      | error e =>
        simp only [setVar, hch]
        exact ⟨hge, hn, by simp⟩
    | false =>
      cases blank with
      | true =>
        simp only [setVar, if_pos]
        exact ⟨addrsGE_set sv n i _ hge (by simp [varAddr]), hn, by simp⟩
      | false =>
        cases hch : chainLoop setters (.dScalar elem) false value t with
        | ok w =>
          simp only [setVar, hch, if_neg (by simp : ¬false = true)]
          exact ⟨addrsGE_set sv n i _ hge (by simp [varAddr]), hn, by simp⟩
        | error e =>
          simp only [setVar, hch, if_neg (by simp : ¬false = true)]
          exact ⟨hge, hn, by simp⟩
  | ptrScalar elem named =>
    cases named with
    | true =>
      cases hch : chainLoop setters (.dOther .kPtr) blank value t with
      | ok w =>
        simp only [setVar, hch]
        exact ⟨hge, hn, by simp⟩
      | error e =>
        simp only [setVar, hch]
        exact ⟨hge, hn, by simp⟩
    | false =>
      rcases hget : sv[i]? with _ | vv
      · cases hch : chainLoop setters (.dScalar elem) blank value t with
        | ok w =>
          simp only [setVar, List.get?_eq_getElem?, hget, hch, Option.getD]
          exact ⟨addrsGE_set sv n i _ hge
              (by intro a ha; simp [varAddr] at ha; omega),
            (frame_append heap (.hScalar w) n hn).1,
            (frame_append heap (.hScalar w) n hn).2⟩
        | error e =>
          simp only [setVar, List.get?_eq_getElem?, hget, hch, Option.getD]
          exact ⟨hge, hn, by simp⟩
      · rcases vv with v0 | vs | a0 | mm | mm
        case ptr =>
          rcases a0 with _ | a0
          · cases hch : chainLoop setters (.dScalar elem) blank value t with
            | ok w =>
              simp only [setVar, List.get?_eq_getElem?, hget, hch, Option.getD]
              exact ⟨addrsGE_set sv n i _ hge
                  (by intro a ha; simp [varAddr] at ha; omega),
                (frame_append heap (.hScalar w) n hn).1,
                (frame_append heap (.hScalar w) n hn).2⟩
            | error e =>
              simp only [setVar, List.get?_eq_getElem?, hget, hch, Option.getD]
              exact ⟨hge, hn, by simp⟩
          · have ha0 : n ≤ a0 := hge a0 (structAddrs_of_getElem sv i a0 hget)
            cases hch : chainLoop setters (.dScalar elem) blank value t with
            | ok w =>
              simp only [setVar, List.get?_eq_getElem?, hget, hch, Option.getD]
              exact ⟨hge, (frame_set heap a0 (.hScalar w) n ha0 hn).1,
                (frame_set heap a0 (.hScalar w) n ha0 hn).2⟩
            | error e =>
              simp only [setVar, List.get?_eq_getElem?, hget, hch, Option.getD]
              exact ⟨hge, hn, by simp⟩
        all_goals
          cases hch : chainLoop setters (.dScalar elem) blank value t with
          | ok w =>
            simp only [setVar, List.get?_eq_getElem?, hget, hch, Option.getD]
            exact ⟨addrsGE_set sv n i _ hge
                (by intro a ha; simp [varAddr] at ha; omega),
              (frame_append heap (.hScalar w) n hn).1,
              (frame_append heap (.hScalar w) n hn).2⟩
          | error e =>
            simp only [setVar, List.get?_eq_getElem?, hget, hch, Option.getD]
            exact ⟨hge, hn, by simp⟩
  | ptrSlice named elemNamed elem =>
    cases named with
    | true =>
      cases hch : chainLoop setters (.dOther .kPtr) blank value t with
      | ok w =>
        simp only [setVar, hch]
        exact ⟨hge, hn, by simp⟩
      | error e =>
        simp only [setVar, hch]
        exact ⟨hge, hn, by simp⟩
    | false =>
      cases elemNamed with
      | true =>
        cases hch : chainLoop setters (.dOther .kSlice) blank value t with
        | ok w =>
          simp only [setVar, hch]
          exact ⟨hge, hn, by simp⟩
        | error e =>
          simp only [setVar, hch]
          exact ⟨hge, hn, by simp⟩
      | false =>
        -- the multi-valued pointer-to-slice: allocate, then blank/append
        rcases hget2 : (sv.get? i).getD (.ptr none) with v0 | vs | a0 | mm | mm
        case ptr =>
          rcases a0 with _ | a0
          · -- nil pointer: fresh cell at heap.length
            have hgev : AddrsGE (sv.set i (.ptr (some heap.length))) n :=
              addrsGE_set sv n i _ hge
                (by intro a ha; simp [varAddr] at ha; omega)
            cases blank with
            | true =>
              simp only [setVar, hget2]
              exact ⟨hgev,
                (frame_append_set heap (.hSlice []) (.hSlice []) n hn).1,
                (frame_append_set heap (.hSlice []) (.hSlice []) n hn).2⟩
            | false =>
              cases hch : chainLoop setters (.dScalar elem) false value t with
              | ok w =>
                simp only [setVar, hget2, hch, if_neg (by simp : ¬false = true)]
                refine ⟨hgev, ?_, ?_⟩
                · exact (frame_append_set heap (.hSlice []) _ n hn).1
                · exact (frame_append_set heap (.hSlice []) _ n hn).2
              | error e =>
                simp only [setVar, hget2, hch, if_neg (by simp : ¬false = true)]
                exact ⟨hgev, (frame_append heap (.hSlice []) n hn).1,
                  (frame_append heap (.hSlice []) n hn).2⟩
          · -- existing pointer
            have ha0 : n ≤ a0 := by
              rcases hg : sv[i]? with _ | vv2
              · rw [List.get?_eq_getElem?, hg] at hget2
                simp at hget2
              · rw [List.get?_eq_getElem?, hg] at hget2
                simp only [Option.getD] at hget2
                subst hget2
                exact hge a0 (structAddrs_of_getElem sv i a0 hg)
            cases blank with
            | true =>
              simp only [setVar, hget2]
              exact ⟨hge, (frame_set heap a0 (.hSlice []) n ha0 hn).1,
                (frame_set heap a0 (.hSlice []) n ha0 hn).2⟩
            | false =>
              cases hch : chainLoop setters (.dScalar elem) false value t with
              | ok w =>
                simp only [setVar, hget2, hch, if_neg (by simp : ¬false = true)]
                exact ⟨hge, (frame_set heap a0 _ n ha0 hn).1,
                  (frame_set heap a0 _ n ha0 hn).2⟩
              | error e =>
                simp only [setVar, hget2, hch, if_neg (by simp : ¬false = true)]
                exact ⟨hge, hn, by simp⟩
        all_goals
          have hgev : AddrsGE (sv.set i (.ptr (some heap.length))) n :=
            addrsGE_set sv n i _ hge
              (by intro a ha; simp [varAddr] at ha; omega)
          cases blank with
          | true =>
            simp only [setVar, hget2]
            exact ⟨hgev,
              (frame_append_set heap (.hSlice []) (.hSlice []) n hn).1,
              (frame_append_set heap (.hSlice []) (.hSlice []) n hn).2⟩
          | false =>
            cases hch : chainLoop setters (.dScalar elem) false value t with
            | ok w =>
              simp only [setVar, hget2, hch, if_neg (by simp : ¬false = true)]
              exact ⟨hgev, (frame_append_set heap (.hSlice []) _ n hn).1,
                (frame_append_set heap (.hSlice []) _ n hn).2⟩
            | error e =>
              simp only [setVar, hget2, hch, if_neg (by simp : ¬false = true)]
              exact ⟨hgev, (frame_append heap (.hSlice []) n hn).1,
                (frame_append heap (.hSlice []) n hn).2⟩
  | mapStrStr =>
    cases hch : chainLoop setters (.dOther .kMap) blank value t with
    | ok w =>
      simp only [setVar, hch]
      exact ⟨hge, hn, by simp⟩
    | error e =>
      simp only [setVar, hch]
      exact ⟨hge, hn, by simp⟩
  | mapStrListStr =>
    cases hch : chainLoop setters (.dOther .kMap) blank value t with
    | ok w =>
      simp only [setVar, hch]
      exact ⟨hge, hn, by simp⟩
    | error e =>
      simp only [setVar, hch]
      exact ⟨hge, hn, by simp⟩

/-- Extra-data capture only writes map-typed fields, so it preserves any
lower bound on a struct's pointer addresses (and never touches the heap). -/
theorem setExtraData_addrs (st : StructType) (sv : StructVal)
    (key value : String) (l : Loc) (n : Nat) (hge : AddrsGE sv n) :
    AddrsGE (setExtraDataInSection st sv key value l).1 n := by
  unfold setExtraDataInSection
  repeat' split
  all_goals
    first
      | exact hge
      | exact addrsGE_set sv n _ _ hge (by intro a ha; simp [varAddr] at ha)

/-- Heap/address frame of the in-struct tail of `set`. -/
theorem setInStruct_frame (st : StructType) (sv : StructVal) (heap : List HCell)
    (name : String) (blank : Bool) (value : String) (l : Loc)
    (n : Nat) (hge : AddrsGE sv n) (hn : n ≤ heap.length) :
    AddrsGE (setInStruct st sv heap name blank value l).1 n ∧
    n ≤ (setInStruct st sv heap name blank value l).2.1.length ∧
    (∀ a, a < n → (setInStruct st sv heap name blank value l).2.1[a]? = heap[a]?) := by
  unfold setInStruct
  by_cases hname : name = ""
  · rw [if_pos hname]
    exact ⟨hge, hn, by simp⟩
  · rw [if_neg hname]
    cases hff : fieldFold st name with
    | none =>
      have hsed := setExtraData_addrs st sv name value
        { l with lvar := some name } n hge
      rcases hs : setExtraDataInSection st sv name value
          { l with lvar := some name } with ⟨sv2, flag, e⟩
      rw [hs] at hsed
      cases flag <;> simp only [hs] <;> exact ⟨hsed, hn, by simp⟩
    | some jt =>
      rcases jt with ⟨j, t⟩
      cases hft : (st.fields.get? j).map GField.ftype with
      | none => simp only [hft]; exact ⟨hge, hn, by simp⟩
      | some ft =>
        simp only [hft]
        have hf := setVar_frame sv heap j ft t blank value
          { l with lvar := some name } n hge hn
        rcases hsv : setVar sv heap j ft t blank value
            { l with lvar := some name } with ⟨sv2, h2, r⟩
        rw [hsv] at hf
        simp only [hsv]
        exact ⟨hf.1, hf.2.1, hf.2.2⟩

/-- The zero struct holds no pointers. -/
theorem zeroStruct_addrs (st : StructType) (n : Nat) :
    AddrsGE (zeroStruct st) n := by
  intro a ha
  exfalso
  simp only [structAddrs, List.mem_filterMap, zeroStruct, List.mem_map] at ha
  rcases ha with ⟨v, ⟨f, hf, rfl⟩, hva⟩
  obtain ⟨fn, gt, sb, fty⟩ := f
  cases fty <;> simp [zeroVarVal, varAddr] at hva

/-- Frame of subsection-instance creation: the fresh instance's pointers are
all at or past the old heap end, the heap only grows, and old cells are
preserved. -/
theorem newValue_frame (rt : RootType) (rv : List SecVal) (h : List HCell)
    (sect : String) (st : StructType) :
    AddrsGE (newValue rt rv h sect st).1 h.length ∧
    h.length ≤ (newValue rt rv h sect st).2.length ∧
    (∀ a, a < h.length → (newValue rt rv h sect st).2[a]? = h[a]?) := by
  simp only [newValue]
  split
  · exact ⟨zeroStruct_addrs st _, le_refl _, by simp⟩
  · split
    · rename_i stD dv heqa heqb
      split
      · rename_i hst
        subst hst
        obtain ⟨hp, hl, hg, _, _⟩ := deepCopyStruct_spec dv h
        exact ⟨hg, hl, hp⟩
      · exact ⟨zeroStruct_addrs st _, le_refl _, by simp⟩
    · exact ⟨zeroStruct_addrs st _, le_refl _, by simp⟩

/-- When the root declares a `default-<section>` field holding a struct of
the subsection's type, `newValue` is exactly the gob deep copy of it. -/
theorem newValue_copy_eq (rt : RootType) (rv : List SecVal) (h : List HCell)
    (sect : String) (st : StructType) (j : Nat) (tg2 : Tag) (dv : StructVal)
    (hdf : rootFold rt ("default-" ++ sect) = some (j, tg2))
    (hdty : (rt.fields[j]?).map RootField.ftype = some (.plainStruct st))
    (hdv : rv[j]? = some (.plainStruct dv)) :
    newValue rt rv h sect st = deepCopyStruct dv h := by
  unfold newValue
  rw [hdf]
  simp [hdty, hdv]

/-- Evaluation of `set` on a structured-subsection (string to pointer-to-
struct map) section field in the subsection pass: existing entries are
updated through `setInStruct`; absent entries are created via `newValue`
first. -/
theorem set_sps_eq (rt : RootType) (rv : List SecVal) (heap : List HCell)
    (sect sub name : String) (blank : Bool) (value : String)
    (i : Nat) (tg : Tag) (st : StructType) (m : List (String × StructVal))
    (hsect : rootFold rt sect = some (i, tg))
    (hty : (rt.fields[i]?).map RootField.ftype = some (.mapStrPtrStruct st))
    (hval : rv[i]? = some (.mapSPS (some m))) :
    set rt rv heap sect sub name blank value true =
      (match alistGet m sub with
       | some sv =>
         match setInStruct st sv heap name blank value ⟨sect, some sub, none⟩ with
         | (sv2, h2, ds, r) =>
           .done (rv.set i (.mapSPS (some (alistSet m sub sv2)))) h2 ds r
       | none =>
         match newValue rt rv heap sect st with
         | (sv0, h0) =>
           match setInStruct st sv0 h0 name blank value ⟨sect, some sub, none⟩ with
           | (sv2, h2, ds, r) =>
             .done (rv.set i (.mapSPS (some (alistSet m sub sv2)))) h2 ds r) := by
  unfold set
  rw [hsect]
  simp [hty, hval]

/-- Frame of one `set` call on a structured subsection: the call returns
normally; only the addressed entry of the section map changes; the entry's
pointers stay at or above `n`; and the heap below `n` is untouched. -/
theorem set_sps_frame (rt : RootType) (rv : List SecVal) (heap : List HCell)
    (sect sub name : String) (blank : Bool) (value : String)
    (i : Nat) (tg : Tag) (st : StructType) (m : List (String × StructVal))
    (hsect : rootFold rt sect = some (i, tg))
    (hty : (rt.fields[i]?).map RootField.ftype = some (.mapStrPtrStruct st))
    (hval : rv[i]? = some (.mapSPS (some m)))
    (n : Nat) (hn : n ≤ heap.length)
    (hbm : ∀ svb, alistGet m sub = some svb → AddrsGE svb n) :
    ∃ m2 h2 ds r,
      set rt rv heap sect sub name blank value true =
        .done (rv.set i (.mapSPS (some m2))) h2 ds r ∧
      (∀ x, x ≠ sub → alistGet m2 x = alistGet m x) ∧
      (∀ svb, alistGet m2 sub = some svb → AddrsGE svb n) ∧
      n ≤ h2.length ∧
      (∀ a, a < n → h2[a]? = heap[a]?) := by
  rw [set_sps_eq rt rv heap sect sub name blank value i tg st m hsect hty hval]
  split
  · rename_i svb hget
    have hf := setInStruct_frame st svb heap name blank value
      ⟨sect, some sub, none⟩ n (hbm svb hget) hn
    rcases hsi : setInStruct st svb heap name blank value
        ⟨sect, some sub, none⟩ with ⟨sv2, h2, ds, r⟩
    rw [hsi] at hf
    refine ⟨alistSet m sub sv2, h2, ds, r, rfl, ?_, ?_, hf.2.1, hf.2.2⟩
    · intro x hx
      exact alistGet_set_ne m sub x sv2 hx
    · intro svb2 heq
      rw [alistGet_set_self] at heq
      cases heq
      exact hf.1
  · have hnf := newValue_frame rt rv heap sect st
    rcases hnv : newValue rt rv heap sect st with ⟨sv0, h0⟩
    rw [hnv] at hnf
    have hge0 : AddrsGE sv0 n := fun a ha => le_trans hn (hnf.1 a ha)
    have hn0 : n ≤ h0.length := le_trans hn hnf.2.1
    have hf := setInStruct_frame st sv0 h0 name blank value
      ⟨sect, some sub, none⟩ n hge0 hn0
    rcases hsi : setInStruct st sv0 h0 name blank value
        ⟨sect, some sub, none⟩ with ⟨sv2, h2, ds, r⟩
    rw [hsi] at hf
    refine ⟨alistSet m sub sv2, h2, ds, r, ?_, ?_, ?_, hf.2.1, ?_⟩
    · show (match setInStruct st sv0 h0 name blank value
          ⟨sect, some sub, none⟩ with
        | (sv2, h2, ds, r) =>
          SetOutcome.done (rv.set i (.mapSPS (some (alistSet m sub sv2)))) h2 ds r) =
        SetOutcome.done (rv.set i (.mapSPS (some (alistSet m sub sv2)))) h2 ds r
      rw [hsi]
    · intro x hx
      exact alistGet_set_ne m sub x sv2 hx
    · intro svb2 heq
      rw [alistGet_set_self] at heq
      cases heq
      exact hf.1
    · intro a ha
      exact (hf.2.2 a ha).trans (hnf.2.2 a (lt_of_lt_of_le ha hn))

/-- C7: structured subsections receive a gob deep copy of the
`default-<section>` template when created, before any of their own values
are applied, and populating one subsection never alters another.
(A) Creating subsection `b` (the empty-name sentinel) stores a fresh
instance whose observable (pointer-dereferenced) content equals the default
template's, while every other entry `x` keeps its value and observable
content.  (B) Applying any sequence of tuples to subsection `b` leaves every
other entry `x` bound to the same struct with unchanged observable content —
even though both may originate from the same template. -/
theorem c7_default_deepcopy (rt : RootType) (rv : List SecVal)
    (heap : List HCell) (sect b x : String) (i : Nat) (tg : Tag)
    (st : StructType) (m : List (String × StructVal)) (xv : StructVal)
    (hsect : rootFold rt sect = some (i, tg))
    (hty : (rt.fields[i]?).map RootField.ftype = some (.mapStrPtrStruct st))
    (hval : rv[i]? = some (.mapSPS (some m)))
    (hx : alistGet m x = some xv)
    (hxc : ∀ a ∈ structAddrs xv, a < heap.length)
    (hxb : x ≠ b)
    (hbm : ∀ svb, alistGet m b = some svb → AddrsGE svb heap.length) :
    (∀ (j : Nat) (tg2 : Tag) (dv : StructVal),
      alistGet m b = none →
      rootFold rt ("default-" ++ sect) = some (j, tg2) →
      (rt.fields[j]?).map RootField.ftype = some (.plainStruct st) →
      rv[j]? = some (.plainStruct dv) →
      (∀ a ∈ structAddrs dv, a < heap.length) →
      ∃ h2 m2,
        set rt rv heap sect b "" false "" true =
          .done (rv.set i (.mapSPS (some m2))) h2 [] none ∧
        (∃ bv, alistGet m2 b = some bv ∧ obsStruct h2 bv = obsStruct heap dv) ∧
        alistGet m2 x = some xv ∧ obsStruct h2 xv = obsStruct heap xv) ∧
    (∀ (ts : List Tuple) (rv2 : List SecVal) (h2 : List HCell)
       (ds : List GErr) (r : Option GErr),
      runTuples rt sect b ts (.done rv heap [] none) = .done rv2 h2 ds r →
      ∃ m2, rv2[i]? = some (.mapSPS (some m2)) ∧
        alistGet m2 x = some xv ∧ obsStruct h2 xv = obsStruct heap xv) := by
  constructor
  · intro j tg2 dv hbnone hdf hdty hdv hdc
    have hnv : newValue rt rv heap sect st = deepCopyStruct dv heap :=
      newValue_copy_eq rt rv heap sect st j tg2 dv hdf hdty hdv
    obtain ⟨hp, hl, hg, hcl, hobs⟩ := deepCopyStruct_spec dv heap
    rcases hdcp : deepCopyStruct dv heap with ⟨cv, hF⟩
    rw [hdcp] at hnv hp hl hg hcl hobs
    have hemp : setInStruct st cv hF "" false "" ⟨sect, some b, none⟩ =
        (cv, hF, [], none) := by
      simp [setInStruct]
    refine ⟨hF, alistSet m b cv, ?_, ⟨cv, ?_, ?_⟩, ?_, ?_⟩
    · rw [set_sps_eq rt rv heap sect b "" false "" i tg st m hsect hty hval]
      simp only [hbnone, hnv, hemp]
    · exact alistGet_set_self m b cv
    · exact hobs hdc
    · rw [alistGet_set_ne m b x cv hxb]
      exact hx
    · exact obsStruct_stable heap hF heap.length xv hp hxc
  · have main : ∀ (ts : List Tuple) (rv1 : List SecVal) (h1 : List HCell)
        (ds1 : List GErr) (r1 : Option GErr) (m1 : List (String × StructVal)),
        rv1[i]? = some (.mapSPS (some m1)) →
        alistGet m1 x = some xv →
        (∀ svb, alistGet m1 b = some svb → AddrsGE svb heap.length) →
        heap.length ≤ h1.length →
        (∀ a, a < heap.length → h1[a]? = heap[a]?) →
        ∀ rv2 h2 ds r,
          runTuples rt sect b ts (.done rv1 h1 ds1 r1) = .done rv2 h2 ds r →
          ∃ m2, rv2[i]? = some (.mapSPS (some m2)) ∧
            alistGet m2 x = some xv ∧ heap.length ≤ h2.length ∧
            (∀ a, a < heap.length → h2[a]? = heap[a]?) := by
      intro ts
      induction ts with
      | nil =>
        intro rv1 h1 ds1 r1 m1 hv1 hx1 hb1 hlen1 hpre1 rv2 h2 ds r hrun
        simp only [runTuples, List.foldl_nil] at hrun
        cases hrun
        exact ⟨m1, hv1, hx1, hlen1, hpre1⟩
      | cons tp ts2 ih =>
        intro rv1 h1 ds1 r1 m1 hv1 hx1 hb1 hlen1 hpre1 rv2 h2 ds r hrun
        simp only [runTuples, List.foldl_cons] at hrun
        obtain ⟨m2, h2x, dsx, rx, hseteq, hothers, hbge, hlenx, hprex⟩ :=
          set_sps_frame rt rv1 h1 sect b tp.name tp.blank tp.value i tg st m1
            hsect hty hv1 heap.length hlen1 hb1
        simp only [stepTuple, hseteq] at hrun
        have hi1 : i < rv1.length := (List.getElem?_eq_some.mp hv1).fst
        have hv2 : (rv1.set i (.mapSPS (some m2)))[i]? =
            some (.mapSPS (some m2)) := List.getElem?_set_eq_of_lt _ hi1
        have hx2 : alistGet m2 x = some xv := (hothers x hxb).trans hx1
        have hpre2 : ∀ a, a < heap.length → h2x[a]? = heap[a]? :=
          fun a ha => (hprex a ha).trans (hpre1 a ha)
        exact ih _ _ _ _ _ hv2 hx2 hbge hlenx hpre2 rv2 h2 ds r hrun
    intro ts rv2 h2 ds r hrun
    obtain ⟨m2, hv2, hx2, hlen2, hpre2⟩ :=
      main ts rv heap [] none m hval hx hbm (le_refl _) (fun a _ => rfl)
        rv2 h2 ds r hrun
    exact ⟨m2, hv2, hx2, obsStruct_stable heap h2 heap.length xv hpre2 hxc⟩

/-- C7, witness: with subsection `a` already populated (its `*int` field at
cell 1) and a default template pointing at cell 0, applying a tuple sequence
that creates and populates subsection `b` leaves `a` bound to the same
struct with unchanged observable content. -/
theorem c7_default_deepcopy_witness :
    ∃ m2,
      ([SecVal.mapSPS (some [("a", [VarVal.ptr (some 1)]), ("b", [VarVal.ptr (some 2)])]),
        SecVal.plainStruct [VarVal.ptr (some 0)]] : List SecVal)[0]? =
        some (.mapSPS (some m2)) ∧
      alistGet m2 "a" = some [VarVal.ptr (some 1)] ∧
      obsStruct [HCell.hScalar (.vInt 7), HCell.hScalar (.vInt 1), HCell.hScalar (.vInt 2)]
          [VarVal.ptr (some 1)] =
        obsStruct [HCell.hScalar (.vInt 7), HCell.hScalar (.vInt 1)]
          [VarVal.ptr (some 1)] :=
  (c7_default_deepcopy
    ⟨[⟨"Sub", "", true, .mapStrPtrStruct ⟨[⟨"Count", "", true, .ptrScalar .tInt false⟩]⟩⟩,
      ⟨"Default_Sub", "", true, .plainStruct ⟨[⟨"Count", "", true, .ptrScalar .tInt false⟩]⟩⟩]⟩
    [.mapSPS (some [("a", [.ptr (some 1)])]), .plainStruct [.ptr (some 0)]]
    [.hScalar (.vInt 7), .hScalar (.vInt 1)]
    "Sub" "b" "a" 0 ⟨"", ""⟩ ⟨[⟨"Count", "", true, .ptrScalar .tInt false⟩]⟩
    [("a", [.ptr (some 1)])] [.ptr (some 1)]
    (by decide) (by decide) (by decide) (by decide) (by decide) (by decide)
    (fun svb h => by simp [alistGet] at h)).2
    [⟨"count", false, "2"⟩]
    [.mapSPS (some [("a", [.ptr (some 1)]), ("b", [.ptr (some 2)])]),
     .plainStruct [.ptr (some 0)]]
    [.hScalar (.vInt 7), .hScalar (.vInt 1), .hScalar (.vInt 2)]
    [] none (by decide)

end GcfgSpec
